import Mathlib

/-!
Verification development for the smart DevOps pipeline orchestrator
(`scripts/framework_detector.py`, `scripts/config_merger.py`,
`scripts/smart_orchestrator.py` and their CLI entry points).

The Python data model (JSON-like nested dictionaries) is embedded as the
mutually inductive type `Value` / `VList` / `VDict` below.  Python dicts
preserve insertion order and assignment to an existing key keeps its
position, which is exactly the behaviour of `setKey` on the ordered
association structure `VDict`.  Fallible Python code (code that can raise)
is embedded in `Except PyErr`; pure code is embedded as plain functions.
Floating point numbers only occur as detection weights and confidences,
where the Python values (0.8, 0.9, 1.0, scores, score/50) are all exactly
representable; they are modelled as rationals.
-/

mutual
/-- Embedding of a Python/JSON value as stored in the configuration
dictionaries of the pipeline. -/
inductive Value where
  | none
  | bool (b : Bool)
  | num (q : ℚ)
  | str (s : String)
  | list (xs : VList)
  | dict (entries : VDict)
deriving DecidableEq
/-- A list of `Value`s (spine of a Python list). -/
inductive VList where
  | nil
  | cons (v : Value) (rest : VList)
deriving DecidableEq
/-- An insertion-ordered Python dictionary with `String` keys. -/
inductive VDict where
  | nil
  | cons (k : String) (v : Value) (rest : VDict)
deriving DecidableEq
end

/-- Build a `VList` from a Lean list (literal notation helper). -/
def VList.ofList : List Value → VList
  | [] => .nil
  | v :: rest => .cons v (VList.ofList rest)

/-- Build a `VDict` from a Lean association list (literal notation helper). -/
def VDict.ofList : List (String × Value) → VDict
  | [] => .nil
  | (k, v) :: rest => .cons k v (VDict.ofList rest)

/-- The keys of a dictionary, in order. -/
def VDict.keys : VDict → List String
  | .nil => []
  | .cons k _ rest => k :: VDict.keys rest

/-- First binding of key `k` (Python `d[k]` / `k in d` read side). -/
def alookup : VDict → String → Option Value
  | .nil, _ => Option.none
  | .cons k' v rest, k => if k' = k then some v else alookup rest k

/-- Python `d[k] = v`: overwrite the existing binding in place, else append. -/
def setKey : VDict → String → Value → VDict
  | .nil, k, v => .cons k v .nil
  | .cons k' w rest, k, v => if k' = k then .cons k' v rest else .cons k' w (setKey rest k v)

/-- Python `k in d` for a dictionary. -/
def hasKey (d : VDict) (k : String) : Bool :=
  (alookup d k).isSome

/-- Python `d.get(k, default)`. -/
def getD (d : VDict) (k : String) (default : Value) : Value :=
  (alookup d k).getD default

/-- Association-list lookup for plain Lean maps (profile tables, script
tables); first binding wins, like a Python dict read. -/
def slookup {α : Type} : List (String × α) → String → Option α
  | [], _ => Option.none
  | (k', v) :: rest, k => if k' = k then some v else slookup rest k

/-- Structural induction on the spine of a `VDict` (the values are not
descended into; this is the list-like recursion used throughout). -/
theorem VDict.spineInduction (P : VDict → Prop) (hnil : P .nil)
    (hcons : ∀ k v rest, P rest → P (.cons k v rest)) : ∀ d, P d
  | .nil => hnil
  | .cons k v rest => hcons k v rest (VDict.spineInduction P hnil hcons rest)

/-- `_deep_merge` from `config_merger.py`: iterate over `override`; a key
whose value is a dict in both sides is merged recursively, every other key
is overwritten with the override's value. -/
def deep_merge (base : VDict) (override : VDict) : VDict :=
  match override with
  | .nil => base
  | .cons k v rest =>
    match alookup base k, v with
    | some (.dict d1), .dict d2 => deep_merge (setKey base k (.dict (deep_merge d1 d2))) rest
    | _, _ => deep_merge (setKey base k v) rest

theorem alookup_setKey_self (d : VDict) (k : String) (v : Value) :
    alookup (setKey d k v) k = some v := by
  induction d using VDict.spineInduction with
  | hnil => simp [setKey, alookup]
  | hcons k' w rest ih =>
    by_cases h : k' = k <;> simp [setKey, alookup, h, ih]

theorem alookup_setKey_ne (d : VDict) (k k' : String) (v : Value) (h : k' ≠ k) :
    alookup (setKey d k v) k' = alookup d k' := by
  have hks : ¬k = k' := fun he => h he.symm
  induction d using VDict.spineInduction with
  | hnil => simp [setKey, alookup, hks]
  | hcons k0 w rest ih =>
    by_cases h0 : k0 = k
    · subst h0
      simp [setKey, alookup, hks]
    · simp [setKey, alookup, h0, ih]

theorem setKey_self (d : VDict) (k : String) (v : Value) (h : alookup d k = some v) :
    setKey d k v = d := by
  induction d using VDict.spineInduction with
  | hnil => simp [alookup] at h
  | hcons k0 w rest ih =>
    by_cases h0 : k0 = k
    · subst h0
      simp [alookup] at h
      simp [setKey, h]
    · simp [alookup, h0] at h
      simp [setKey, h0, ih h]

theorem alookup_eq_none_of_not_mem (d : VDict) (k : String) (h : k ∉ d.keys) :
    alookup d k = Option.none := by
  induction d using VDict.spineInduction with
  | hnil => simp [alookup]
  | hcons k0 w rest ih =>
    simp only [VDict.keys, List.mem_cons] at h
    push_neg at h
    have h1 : ¬k0 = k := fun he => h.1 he.symm
    simp [alookup, h1, ih h.2]

/-- Test for the Python `isinstance(v, dict)` check used by `_deep_merge`. -/
def Value.isDict : Value → Bool
  | .dict _ => true
  | _ => false

/-- Specification-side description (from the spec's merge invariant) of the
value the deep merge assigns to one key, given the values the two sides
hold for it: absent in the override means the base value survives, two
dicts merge recursively, anything else is overwritten by the override. -/
def mergedValue (a b : Option Value) : Option Value :=
  match a, b with
  | a, Option.none => a
  | some (.dict d1), some (.dict d2) => some (.dict (deep_merge d1 d2))
  | _, some v => some v

theorem deep_merge_alookup :
    ∀ (B A : VDict), B.keys.Nodup → ∀ k,
      alookup (deep_merge A B) k = mergedValue (alookup A k) (alookup B k) := by
  intro B
  induction B using VDict.spineInduction with
  | hnil =>
    intro A hB k
    simp [deep_merge, alookup, mergedValue]
  | hcons k0 v0 rest ih =>
    intro A hB k
    simp only [VDict.keys] at hB
    obtain ⟨hk0, hrest⟩ := List.nodup_cons.mp hB
    have step : ∀ X, alookup (deep_merge (setKey A k0 X) rest) k
        = mergedValue (alookup (setKey A k0 X) k) (alookup rest k) :=
      fun X => ih (setKey A k0 X) hrest k
    by_cases hk : k0 = k
    · subst hk
      have hrnone : alookup rest k0 = Option.none := alookup_eq_none_of_not_mem _ _ hk0
      rcases hA : alookup A k0 with _ | w
      · cases v0 <;>
          simp [deep_merge, hA, step, alookup_setKey_self, hrnone, mergedValue, alookup]
      · cases w <;> cases v0 <;>
          simp [deep_merge, hA, step, alookup_setKey_self, hrnone, mergedValue, alookup]
    · have hne : k ≠ k0 := fun he => hk he.symm
      rcases hA : alookup A k0 with _ | w
      · cases v0 <;>
          simp [deep_merge, hA, step, alookup_setKey_ne _ _ _ _ hne, mergedValue, alookup, hk]
      · cases w <;> cases v0 <;>
          simp [deep_merge, hA, step, alookup_setKey_ne _ _ _ _ hne, mergedValue, alookup, hk]

/-- C7: the deep merge of two maps A (lower priority) and B (higher
priority) equals A's value for every key absent from B, equals B's value
for every key present only in B, equals the recursive deep merge for every
key mapped to a map in both A and B, and equals B's value outright for
every key mapped to a map in one and a scalar in the other.  Because the
statement quantifies over all dictionaries (so in particular over the
nested dictionaries reached by the recursive case), it holds at every
nesting level. -/
theorem deep_merge_key_cases (A B : VDict) (hB : B.keys.Nodup) (k : String) :
    (alookup B k = Option.none → alookup (deep_merge A B) k = alookup A k)
    ∧ (alookup A k = Option.none → ∀ v, alookup B k = some v →
        alookup (deep_merge A B) k = some v)
    ∧ (∀ d1 d2, alookup A k = some (.dict d1) → alookup B k = some (.dict d2) →
        alookup (deep_merge A B) k = some (.dict (deep_merge d1 d2)))
    ∧ (∀ v w, alookup A k = some v → alookup B k = some w →
        ¬(v.isDict = true ∧ w.isDict = true) →
        alookup (deep_merge A B) k = some w) := by
  rw [deep_merge_alookup B A hB k]
  refine ⟨?_, ?_, ?_, ?_⟩
  · intro hb
    rw [hb]
    rcases alookup A k with _ | v
    · rfl
    · cases v <;> rfl
  · intro ha v hb
    rw [ha, hb]
    rfl
  · intro d1 d2 ha hb
    rw [ha, hb]
    rfl
  · intro v w ha hb hnd
    rw [ha, hb]
    cases v <;> cases w <;> first
      | rfl
      | exact absurd ⟨rfl, rfl⟩ hnd

/-- Concrete base dictionary for exercising the deep-merge theorem. -/
def mergeWitA : VDict := VDict.ofList
  [("keep", .str "base"), ("nested", .dict (VDict.ofList [("x", .num 1), ("y", .str "a")])),
   ("clash", .dict (VDict.ofList [("z", .num 2)]))]

/-- Concrete override dictionary for exercising the deep-merge theorem. -/
def mergeWitB : VDict := VDict.ofList
  [("nested", .dict (VDict.ofList [("y", .str "b")])), ("clash", .str "scalar"),
   ("fresh", .num 7)]

theorem deep_merge_key_cases_witness :
    mergeWitB.keys.Nodup
    ∧ alookup (deep_merge mergeWitA mergeWitB) "keep" = alookup mergeWitA "keep" :=
  ⟨by decide, (deep_merge_key_cases mergeWitA mergeWitB (by decide) "keep").1 rfl⟩

/-- Exceptions that the embedded Python code can raise. -/
inductive PyErr where
  | keyError (k : String)
  | typeError (msg : String)
  | attributeError (msg : String)
  | nameError (n : String)
  | exception (msg : String)
deriving DecidableEq

/-- Python `str(e)` for an exception, as used when an orchestrator except
block stores the error message; `KeyError` renders as the quoted key, the
others render their message. -/
def pyErrStr : PyErr → String
  | .keyError k => "'" ++ k ++ "'"
  | .typeError m => m
  | .attributeError m => m
  | .nameError n => "name '" ++ n ++ "' is not defined"
  | .exception m => m

/-- Python truthiness of a value (`if v:`). -/
def pyTruthy : Value → Bool
  | .none => false
  | .bool b => b
  | .num q => q != 0
  | .str s => s ≠ ""
  | .list .nil => false
  | .list (.cons _ _) => true
  | .dict .nil => false
  | .dict (.cons _ _ _) => true

/-- Truthiness of an `os.getenv` result: set and non-empty. -/
def pyTruthyOpt : Option String → Bool
  | Option.none => false
  | some s => s ≠ ""

/-- An `os.getenv` result as a Python value (`None` when unset). -/
def optStr : Option String → Value
  | Option.none => .none
  | some s => .str s

/-- Python `v[k]` for string key `k`: dictionary lookup (raising `KeyError`
when absent), `TypeError` on any non-dictionary. -/
def pyIndex (v : Value) (k : String) : Except PyErr Value :=
  match v with
  | .dict es =>
    match alookup es k with
    | some w => .ok w
    | Option.none => .error (.keyError k)
  | _ => .error (.typeError "object is not subscriptable")

/-- Is `needle` a contiguous substring of `hay` (Python `in` on strings)? -/
def charsContain (needle : List Char) : List Char → Bool
  | [] => needle.isEmpty
  | c :: rest => needle.isPrefixOf (c :: rest) || charsContain needle rest

/-- Python `x == k` where `k` is a string literal: true only for an equal
string value (values of other types never equal a string). -/
def isStrEq (v : Value) (k : String) : Bool :=
  match v with
  | .str s => s = k
  | _ => false

/-- Membership of a string in a Python list value (`k in xs`). -/
def vlistContainsStr (k : String) : VList → Bool
  | .nil => false
  | .cons v rest => isStrEq v k || vlistContainsStr k rest

/-- Python `k in v` for a string `k`: key membership for dictionaries,
substring test for strings, element equality for lists, `TypeError`
otherwise. -/
def pyContainsKey (k : String) (v : Value) : Except PyErr Bool :=
  match v with
  | .dict es => .ok (hasKey es k)
  | .str s => .ok (charsContain k.data s.data)
  | .list xs => .ok (vlistContainsStr k xs)
  | _ => .error (.typeError "argument is not iterable")

/-- Python `v.get(k, default)`: only dictionaries have `get`. -/
def pyDictGet (v : Value) (k : String) (default : Value) : Except PyErr Value :=
  match v with
  | .dict es => .ok (getD es k default)
  | _ => .error (.attributeError "object has no attribute get")

/-- Python `v[k] = w`: item assignment, `TypeError` on non-dictionaries. -/
def setItem (v : Value) (k : String) (w : Value) : Except PyErr Value :=
  match v with
  | .dict es => .ok (.dict (setKey es k w))
  | _ => .error (.typeError "object does not support item assignment")

/-- Python `str(v)` as used inside the f-strings that build the image
names.  Exact for the strings, booleans and `None`; the pipeline only ever
formats strings there, so the container renderings are abbreviated. -/
def pyStr : Value → String
  | .str s => s
  | .bool b => if b then "True" else "False"
  | .none => "None"
  | .num q => if q.den = 1 then toString q.num else toString q
  | .list _ => "<list>"
  | .dict _ => "<dict>"

/-- The recognized CI environment variables (Azure DevOps names in the
source); `Option.none` models an unset variable. -/
structure Env where
  buildNumber : Option String
  buildId : Option String
  sourceVersion : Option String
  sourceBranchName : Option String
  definitionName : Option String
  buildReason : Option String
  repositoryName : Option String
  repositoryUri : Option String
  dockerRepository : Option String
deriving DecidableEq

/-- The environment with every recognized variable unset. -/
def Env.empty : Env :=
  ⟨Option.none, Option.none, Option.none, Option.none, Option.none,
   Option.none, Option.none, Option.none, Option.none⟩

/-- The `build_info` dictionary injected by `_add_environment_overrides`
when `BUILD_BUILDNUMBER` is truthy. -/
def build_info_block (env : Env) : VDict := VDict.ofList
  [("build_number", .str (env.buildNumber.getD "")),
   ("build_id", optStr env.buildId),
   ("source_version", .str ((env.sourceVersion.getD "").take 8)),
   ("source_branch", .str (env.sourceBranchName.getD "unknown")),
   ("pipeline_name", .str (env.definitionName.getD "unknown")),
   ("build_reason", .str (env.buildReason.getD "manual"))]

/-- `_add_environment_overrides` from `config_merger.py`: if the CI build
number variable is set (and non-empty), store the `build_info` block. -/
def add_environment_overrides (config : VDict) (env : Env) : VDict :=
  if pyTruthyOpt env.buildNumber then
    setKey config "build_info" (.dict (build_info_block env))
  else config

/-- App-section phase of `_add_auto_detected_values`: ensure the `app`
section exists, fill in a normalized `name` when absent (explicit
`app_config` name, else the CI repository-name variable, else
`"unknown-app"`, lowered with `_` replaced by `-`), and force
`framework` / `detected_framework` to the detected framework. -/
def autoApp (config original : VDict) (detected : String) (env : Env) :
    Except PyErr VDict := do
  let config := if hasKey config "app" then config else setKey config "app" (.dict .nil)
  let appV := getD config "app" .none
  let nameIn ← pyContainsKey "name" appV
  let appV ← (if nameIn then pure appV else do
    let origApp := getD original "app" (.dict .nil)
    let origName ← pyDictGet origApp "name" .none
    let nm := if pyTruthy origName then origName else .str (env.repositoryName.getD "unknown-app")
    let nmStr ← (match nm with
      | .str s => Except.ok ((s.toLower).replace "_" "-")
      | _ => Except.error (.attributeError "object has no attribute lower"))
    setItem appV "name" (.str nmStr))
  let appV ← setItem appV "framework" (.str detected)
  let appV ← setItem appV "detected_framework" (.str detected)
  pure (setKey config "app" appV)

/-- Source-section phase of `_add_auto_detected_values`: `repo_url` and
`branch` come from their environment variables with the pre-existing
values (defaults `""` / `"main"`) as `os.getenv` fallback, while
`commit_sha` is always overwritten with the source-version variable or
`""`.  Returns the updated config together with the source dictionary
(the Python code keeps mutating the same `source_config` object and later
reads the branch from it). -/
def autoSource (config : VDict) (env : Env) : Except PyErr (VDict × Value) := do
  let config := if hasKey config "source" then config else setKey config "source" (.dict .nil)
  let sourceV := getD config "source" .none
  let ruDefault ← pyDictGet sourceV "repo_url" (.str "")
  let sourceV ← setItem sourceV "repo_url" (match env.repositoryUri with
    | some s => .str s
    | Option.none => ruDefault)
  let brDefault ← pyDictGet sourceV "branch" (.str "main")
  let sourceV ← setItem sourceV "branch" (match env.sourceBranchName with
    | some s => .str s
    | Option.none => brDefault)
  let sourceV ← setItem sourceV "commit_sha" (.str (env.sourceVersion.getD ""))
  pure (setKey config "source" sourceV, sourceV)

/-- Tag recomputation tail of the docker-section phase of
`_add_auto_detected_values`: unconditionally recompute `tag`,
`full_image` and `latest_image` from the build number (reading
repository, image and the freshly written tag back from the
dictionary, like the source's f-strings). -/
def dockerTags (dockerV : Value) (env : Env) : Except PyErr Value := do
  let build_number := env.buildNumber.getD "local"
  let dockerV ← setItem dockerV "tag" (.str ("v" ++ build_number))
  let repoV ← pyIndex dockerV "repository"
  let imgV ← pyIndex dockerV "image"
  let tagV ← pyIndex dockerV "tag"
  let dockerV ← setItem dockerV "full_image"
    (.str (pyStr repoV ++ "/" ++ pyStr imgV ++ ":" ++ pyStr tagV))
  setItem dockerV "latest_image" (.str (pyStr repoV ++ "/" ++ pyStr imgV ++ ":latest"))

/-- Docker-section phase, continued: the repository/image defaulting
followed by the unconditional tag recomputation (`dockerTags`), on a
configuration whose `docker` section already exists. -/
def autoDockerCore (config : VDict) (env : Env) (global_config : VDict) :
    Except PyErr VDict := do
  let dockerV := getD config "docker" .none
  let repoIn ← pyContainsKey "repository" dockerV
  let dockerV ← (if repoIn then pure dockerV else do
    let gdocker := getD global_config "docker" (.dict .nil)
    let orgDefault ← pyDictGet gdocker "organization" (.str "myorg")
    setItem dockerV "repository" (match env.dockerRepository with
      | some s => .str s
      | Option.none => orgDefault))
  let imageIn ← pyContainsKey "image" dockerV
  let dockerV ← (if imageIn then pure dockerV else do
    let appNm ← pyIndex (getD config "app" .none) "name"
    setItem dockerV "image" appNm)
  let dockerV ← dockerTags dockerV env
  pure (setKey config "docker" dockerV)

/-- Docker-section phase of `_add_auto_detected_values`: ensure the
`docker` section exists, then run the defaulting and tag recomputation. -/
def autoDocker (config : VDict) (env : Env) (global_config : VDict) :
    Except PyErr VDict :=
  autoDockerCore
    (if hasKey config "docker" then config else setKey config "docker" (.dict .nil))
    env global_config

/-- The branch-to-environment rule of the deployment-section phase:
`main`/`master` to production, `develop` to staging, anything else to
development (the Python list-membership and equality tests on the branch
value). -/
def pyBranchEnv (branchV : Value) : String :=
  if isStrEq branchV "main" || isStrEq branchV "master" then "production"
  else if isStrEq branchV "develop" then "staging"
  else "development"

/-- Deployment-section phase, continued: namespace default and the
branch-to-environment derivation. -/
def autoDeployment (config : VDict) (sourceV : Value) : Except PyErr VDict := do
  let config := if hasKey config "deployment" then config
    else setKey config "deployment" (.dict .nil)
  let depV := getD config "deployment" .none
  let nsIn ← pyContainsKey "namespace" depV
  let depV ← (if nsIn then pure depV else do
    let appNm ← pyIndex (getD config "app" .none) "name"
    setItem depV "namespace" appNm)
  let envIn ← pyContainsKey "environment" depV
  let depV ← (if envIn then pure depV else do
    let branchV ← pyDictGet sourceV "branch" (.str "unknown")
    setItem depV "environment" (.str (pyBranchEnv branchV)))
  pure (setKey config "deployment" depV)

/-- `_add_auto_detected_values` from `config_merger.py`, as the sequential
composition of its app, source, docker and deployment sections. -/
def add_auto_detected_values (config original : VDict) (detected : String)
    (env : Env) (global_config : VDict) : Except PyErr VDict := do
  let c1 ← autoApp config original detected env
  let (c2, sourceV) ← autoSource c1 env
  let c3 ← autoDocker c2 env global_config
  autoDeployment c3 sourceV

/-- `merge_config` from `config_merger.py`: deep-merge the global config,
the framework defaults for the detected framework and the app config (low
to high precedence), then apply the environment overrides and the
auto-detected values. -/
def merge_config (global_config : VDict) (framework_defaults : List (String × VDict))
    (app_config : VDict) (detected : String) (env : Env) : Except PyErr VDict :=
  let merged := deep_merge .nil global_config
  let merged := deep_merge merged ((slookup framework_defaults detected).getD .nil)
  let merged := deep_merge merged app_config
  let merged := add_environment_overrides merged env
  add_auto_detected_values merged app_config detected env global_config

/-- `validate_config` from `config_merger.py`.  It collects the two
required-field errors softly, but its resource-check branch dereferences
the undefined name `both` (`if 'cpu' in both ...`), so any configuration
whose `deployment.resources` carries both `limits` and `requests` raises
`NameError` instead of being annotated. -/
def validate_config (config : VDict) : Except PyErr VDict := do
  let appV := getD config "app" (.dict .nil)
  let nameV ← pyDictGet appV "name" .none
  let errs1 : List Value := if pyTruthy nameV then [] else [.str "app.name is required"]
  let dockerV := getD config "docker" (.dict .nil)
  let repoV ← pyDictGet dockerV "repository" .none
  let errs : List Value :=
    errs1 ++ (if pyTruthy repoV then [] else [.str "docker.repository is required"])
  let _ ← (if hasKey config "deployment" then do
      let depV := getD config "deployment" .none
      let resIn ← pyContainsKey "resources" depV
      if resIn then do
        let resources ← pyIndex depV "resources"
        let limIn ← pyContainsKey "limits" resources
        if limIn then do
          let reqIn ← pyContainsKey "requests" resources
          if reqIn then do
            let _ ← pyIndex resources "limits"
            let _ ← pyIndex resources "requests"
            (Except.error (.nameError "both") : Except PyErr Unit)
          else pure ()
        else pure ()
      else pure ()
    else pure ())
  pure (setKey config "validation" (.dict (VDict.ofList
    [("errors", .list (VList.ofList errs)),
     ("warnings", .list (VList.ofList [])),
     ("valid", .bool errs.isEmpty)])))

/-- Re-merge of an already-merged, already-auto-detected configuration with
an empty `app_config` layer: the accumulated configuration plays the role
of the merged lower layers (deep-merging the empty app layer on top), and
the environment-override and auto-detected-value passes of `merge_config`
run again over it. -/
def remerge (c : VDict) (detected : String) (env : Env) (global_config : VDict) :
    Except PyErr VDict :=
  add_auto_detected_values (add_environment_overrides (deep_merge c .nil) env)
    .nil detected env global_config

/-- One framework's detection patterns (`FrameworkDetector.detection_patterns`
entry). -/
structure Profile where
  files : List String
  package_dependencies : List String
  package_dev_dependencies : List String
  config_files : List String
  build_commands : List String
  start_commands : List String
  weight : ℚ
deriving DecidableEq

/-- A parsed `package.json`.  Dependency maps are modelled by their key
sets (the detector only tests key presence); scripts keep their command
strings (the build strategy embeds them as `script_content`).  An absent,
unparseable or empty manifest is `Option.none` at the use sites. -/
structure Manifest where
  name : Option String
  dependencies : List String
  devDependencies : List String
  scripts : List (String × String)
deriving DecidableEq

/-- A repository tree: the set of paths that exist (relative to the root),
the optional parsed manifest, the directory name and whether
`package-lock.json` exists. -/
structure Repo where
  files : List String
  manifest : Option Manifest
  dirName : String
  hasPackageLock : Bool
deriving DecidableEq

/-- The static `detection_patterns` table of `framework_detector.py`, in
declaration order. -/
def detection_patterns : List (String × Profile) :=
  [("angular",
    { files := ["angular.json", "src/main.ts", "src/app/app.module.ts"],
      package_dependencies := ["@angular/core", "@angular/cli", "@angular/common"],
      package_dev_dependencies := ["@angular/cli", "@angular-devkit/build-angular"],
      config_files := ["angular.json", "tsconfig.json", "tsconfig.app.json"],
      build_commands := ["build:prod", "build", "ng build"],
      start_commands := ["start", "serve", "ng serve"],
      weight := 1 }),
   ("react",
    { files := ["src/App.js", "src/App.tsx", "public/index.html", "src/index.js"],
      package_dependencies := ["react", "react-dom"],
      package_dev_dependencies := ["react-scripts", "create-react-app"],
      config_files := ["package.json"],
      build_commands := ["build", "react-scripts build"],
      start_commands := ["start", "react-scripts start"],
      weight := 9/10 }),
   ("vue",
    { files := ["src/App.vue", "vue.config.js", "src/main.js"],
      package_dependencies := ["vue"],
      package_dev_dependencies := ["@vue/cli-service", "@vue/cli"],
      config_files := ["vue.config.js"],
      build_commands := ["build", "vue-cli-service build"],
      start_commands := ["serve", "vue-cli-service serve"],
      weight := 8/10 }),
   ("nextjs",
    { files := ["next.config.js", "pages/_app.js", "pages/index.js"],
      package_dependencies := ["next", "react"],
      package_dev_dependencies := ["next"],
      config_files := ["next.config.js"],
      build_commands := ["build", "next build"],
      start_commands := ["dev", "next dev"],
      weight := 9/10 })]

/-- One signal-category loop of `detect_framework`: walk the candidate
list, add `points` per present candidate and record the evidence (every
category loop in the source has exactly this shape). -/
def scoreCat (points : Nat) (cands : List String) (present : String → Bool) :
    Nat × List String :=
  cands.foldl (fun acc c => if present c then (acc.1 + points, acc.2 ++ [c]) else acc) (0, [])

/-- A list of strings as a Python list value. -/
def strListV (xs : List String) : Value :=
  .list (VList.ofList (xs.map Value.str))

/-- Raw score and details dictionary of one framework profile against a
repository: 3 points per marker file, 5 per runtime dependency, 3 per dev
dependency, 2 per config file, 1 per available build script; the
dependency and build-script categories run only when a manifest was
loaded. -/
def scoreProfile (r : Repo) (p : Profile) : Nat × Value :=
  let fileRes := scoreCat 3 p.files (fun f => r.files.contains f)
  let depRes := match r.manifest with
    | some m =>
      some (scoreCat 5 p.package_dependencies (fun d => m.dependencies.contains d),
            scoreCat 3 p.package_dev_dependencies (fun d => m.devDependencies.contains d))
    | Option.none => Option.none
  let configRes := scoreCat 2 p.config_files (fun f => r.files.contains f)
  let buildRes := match r.manifest with
    | some m =>
      some (scoreCat 1 p.build_commands (fun c => (m.scripts.map Prod.fst).contains c))
    | Option.none => Option.none
  let score := fileRes.1
    + (match depRes with | some (d, v) => d.1 + v.1 | Option.none => 0)
    + configRes.1
    + (match buildRes with | some b => b.1 | Option.none => 0)
  let breakdown : VDict := VDict.ofList
    ([("files", .num fileRes.1)]
     ++ (match depRes with
         | some (d, v) => [("dependencies", Value.num d.1), ("dev_dependencies", Value.num v.1)]
         | Option.none => [])
     ++ [("config_files", .num configRes.1)]
     ++ (match buildRes with
         | some b => [("build_commands", Value.num b.1)]
         | Option.none => []))
  let details : Value := .dict (VDict.ofList
    [("files_found", strListV fileRes.2),
     ("dependencies_found", strListV (match depRes with | some (d, _) => d.2 | Option.none => [])),
     ("dev_dependencies_found", strListV (match depRes with | some (_, v) => v.2 | Option.none => [])),
     ("config_files_found", strListV configRes.2),
     ("build_commands_available", strListV (match buildRes with | some b => b.2 | Option.none => [])),
     ("confidence_breakdown", .dict breakdown)])
  (score, details)

/-- The `scores` / `detection_details` accumulation loop of
`detect_framework`: frameworks with weighted score `> 0`, in declaration
order, with their weighted scores and details. -/
def scoresAndDetails (r : Repo) : List (String × ℚ × Value) :=
  detection_patterns.foldl (fun acc fp =>
    let sd := scoreProfile r fp.2
    let w := (sd.1 : ℚ) * fp.2.weight
    if 0 < w then acc ++ [(fp.1, w, sd.2)] else acc) []

/-- Python `max(scores, key=scores.get)`: the first entry attaining the
maximum (later entries replace the champion only when strictly greater). -/
def pythonMax : List (String × ℚ × Value) → Option (String × ℚ × Value)
  | [] => Option.none
  | x :: rest => some (rest.foldl (fun best y => if best.2.1 < y.2.1 then y else best) x)

/-- `detect_framework` from `framework_detector.py`.  A missing repository
path returns `("unknown", 0.0, {})` (the source prints a message and
returns, it does not raise); otherwise the best positively-scoring
framework is returned with confidence `min(weighted_score / 50, 1.0)`,
and `("generic", 0.1, {})` when nothing scores. -/
def detect_framework : Option Repo → String × ℚ × Value
  | Option.none => ("unknown", 0, .dict .nil)
  | some r =>
    match pythonMax (scoresAndDetails r) with
    | some (f, s, d) => (f, if s / 50 ≤ 1 then s / 50 else 1, d)
    | Option.none => ("generic", 1/10, .dict .nil)

/-- First profile-preferred build script present in the manifest's script
table, with its command string. -/
def firstScript : List String → List (String × String) → Option (String × String)
  | [], _ => Option.none
  | c :: rest, scripts =>
    match slookup scripts c with
    | some content => some (c, content)
    | Option.none => firstScript rest scripts

/-- `detect_build_strategy` from `framework_detector.py`. -/
def detect_build_strategy (r : Repo) (framework : String) : VDict :=
  match r.manifest with
  | Option.none => VDict.ofList
      [("command", .str "echo \"No package.json found\""),
       ("type", .str "generic"),
       ("install_command", .str "echo \"No install needed\"")]
  | some m =>
    let preferred := match slookup detection_patterns framework with
      | some p => p.build_commands
      | Option.none => ["build"]
    let install := if r.hasPackageLock then "npm ci --prefer-offline --no-audit --no-fund"
      else "npm install --prefer-offline --no-audit --no-fund"
    match firstScript preferred m.scripts with
    | some (cmd, content) => VDict.ofList
        [("command", .str ("npm run " ++ cmd)),
         ("type", .str framework),
         ("script_content", .str content),
         ("install_command", .str install),
         ("available_scripts", .list (VList.ofList (m.scripts.map (fun kv => Value.str kv.1))))]
    | Option.none =>
      match slookup m.scripts "build" with
      | some content => VDict.ofList
          [("command", .str "npm run build"),
           ("type", .str "generic"),
           ("script_content", .str content),
           ("install_command", .str install)]
      | Option.none => VDict.ofList
          [("command", .str install),
           ("type", .str "install-only"),
           ("install_command", .str install)]

/-- Name cleaning used by `_extract_app_name` on a `package.json` name. -/
def cleanPkgName (s : String) : String :=
  (((s.toLower).replace "_" "-").replace "@" "").replace "/" "-"

/-- `_extract_app_name` from `smart_orchestrator.py`: manifest name, else
the CI repository-name variable, else the directory name, normalized. -/
def extract_app_name (r : Repo) (env : Env) : String :=
  match r.manifest.bind (fun m => m.name) with
  | some n => cleanPkgName n
  | Option.none =>
    if pyTruthyOpt env.repositoryName then
      ((env.repositoryName.getD "").toLower).replace "_" "-"
    else (r.dirName.toLower).replace "_" "-"

/-- Result of an external stage collaborator (`smart_build.run`,
`smart_docker.run`, `smart_deploy.run`), at the interface the orchestrator
consumes: the `success` flag and the optional `error` message read by
`result.get('error', ...)`. -/
structure StageResult where
  success : Bool
  error : Option String
deriving DecidableEq

/-- Result of `SmartOrchestrator.process_repository` (duration omitted:
wall-clock time is outside the embedding). -/
inductive ProcResult where
  | ok (build_result docker_result : StageResult) (app_name framework : Value)
  | failed (error : String)
deriving DecidableEq

/-- The `success` field of a `process_repository` result. -/
def ProcResult.success : ProcResult → Bool
  | .ok .. => true
  | .failed _ => false

/-- Result of `SmartOrchestrator.analyze_only` (duration omitted). -/
inductive AnalysisResult where
  | ok (config : VDict) (framework : String) (confidence : ℚ)
  | failed (error : String)
deriving DecidableEq

/-- The `success` field of an `analyze_only` result. -/
def AnalysisResult.success : AnalysisResult → Bool
  | .ok .. => true
  | .failed _ => false

/-- The `config['app']['name']` / `config['app']['framework']` reads of
`process_repository` (raising `KeyError` / `TypeError` like the source). -/
def configAppFields (config : VDict) : Except PyErr (Value × Value) := do
  let app ← pyIndex (.dict config) "app"
  let n ← pyIndex app "name"
  let f ← pyIndex app "framework"
  Except.ok (n, f)

/-- `SmartOrchestrator.process_repository`, parameterized by the Build and
Container stage collaborators (external per the spec).  The second
component of the result is the invocation trace: the collaborators that
were actually called, in order.  `repoExists` models
`Path(repo_path).exists()`. -/
def process_repository (build docker : VDict → String → StageResult)
    (repoExists : Bool) (repoPath : String) (config : VDict) :
    ProcResult × List String :=
  if !repoExists then
    (.failed ("Repository path does not exist: " ++ repoPath), [])
  else if !(pyTruthy (getD config "success" (.bool true))) then
    (.failed "Invalid configuration provided", [])
  else
    match configAppFields config with
    | .error e => (.failed (pyErrStr e), [])
    | .ok (n, f) =>
      let build_result := build config repoPath
      if !build_result.success then
        (.failed ("Build failed: " ++ (build_result.error.getD "Unknown build error")),
         ["build"])
      else
        let docker_result := docker config repoPath
        if !docker_result.success then
          (.failed ("Docker process failed: "
             ++ (docker_result.error.getD "Unknown Docker error")),
           ["build", "docker"])
        else (.ok build_result docker_result n f, ["build", "docker"])

/-- `SmartOrchestrator.analyze_only`: detection, build-strategy detection,
base configuration, merge and validation, with every raised exception
converted into a failure result.  `repo` is `Option.none` when the
repository path does not exist. -/
def analyze_only (repo : Option Repo) (repoPath : String) (global_config : VDict)
    (framework_defaults : List (String × VDict)) (env : Env) : AnalysisResult :=
  match repo with
  | Option.none => .failed ("Repository path does not exist: " ++ repoPath)
  | some r =>
    match detect_framework (some r) with
    | (framework, confidence, detection_details) =>
      let build_strategy := detect_build_strategy r framework
      let base_config : VDict := VDict.ofList
        [("app", .dict (VDict.ofList
           [("name", .str (extract_app_name r env)), ("framework", .str framework)])),
         ("detection", .dict (VDict.ofList
           [("framework", .str framework), ("confidence", .num confidence),
            ("details", detection_details)])),
         ("build_strategy", .dict build_strategy)]
      match (do
        validate_config (← merge_config global_config framework_defaults
          base_config framework env) : Except PyErr VDict) with
      | .error e => .failed (pyErrStr e)
      | .ok final_config => .ok final_config framework confidence

/-- Result of `SmartOrchestrator.full_pipeline`: either one of the two
failure results returned unchanged, or the completion dictionary with the
analysis, processing and optional deployment sub-results. -/
inductive FullResult where
  | analysisFailed (r : AnalysisResult)
  | processFailed (r : ProcResult)
  | completed (analysis : AnalysisResult) (processing : ProcResult)
      (deployment : Option StageResult)
deriving DecidableEq

/-- The `success` field of a `full_pipeline` result: the failure results
carry `success=false`; the completion dictionary is written with
`success: True` unconditionally. -/
def FullResult.success : FullResult → Bool
  | .analysisFailed _ => false
  | .processFailed _ => false
  | .completed .. => true

/-- The `deployment` field of a `full_pipeline` result. -/
def FullResult.deployment : FullResult → Option StageResult
  | .completed _ _ d => d
  | _ => Option.none

/-- `SmartOrchestrator.full_pipeline`, parameterized by the three stage
collaborators.  The trace records which collaborators ran. -/
def full_pipeline (build docker : VDict → String → StageResult)
    (deployRun : VDict → StageResult) (repo : Option Repo) (repoPath : String)
    (global_config : VDict) (framework_defaults : List (String × VDict))
    (env : Env) (deploy : Bool) : FullResult × List String :=
  match analyze_only repo repoPath global_config framework_defaults env with
  | .failed e => (.analysisFailed (.failed e), [])
  | .ok config framework confidence =>
    let pr := process_repository build docker repo.isSome repoPath config
    if !pr.1.success then (.processFailed pr.1, pr.2)
    else if deploy then
      (.completed (.ok config framework confidence) pr.1 (some (deployRun config)),
       pr.2 ++ ["deploy"])
    else (.completed (.ok config framework confidence) pr.1 Option.none, pr.2)

/-- Specification-side raw score formula (from the spec's scoring rules):
3 points per existing marker file, 5 per runtime dependency listed in the
manifest, 3 per dev dependency, 2 per existing config file, 1 per build
script present in the manifest's scripts; the dependency and script terms
are zero when there is no manifest. -/
def specRaw (r : Repo) (p : Profile) : Nat :=
  3 * p.files.countP (fun f => r.files.contains f)
    + (match r.manifest with
       | some m => 5 * p.package_dependencies.countP (fun d => m.dependencies.contains d)
           + 3 * p.package_dev_dependencies.countP (fun d => m.devDependencies.contains d)
       | Option.none => 0)
    + 2 * p.config_files.countP (fun f => r.files.contains f)
    + (match r.manifest with
       | some m => 1 * p.build_commands.countP (fun c => (m.scripts.map Prod.fst).contains c)
       | Option.none => 0)

/-- Specification-side weighted score: raw score times the profile weight. -/
def specWeighted (r : Repo) (p : Profile) : ℚ :=
  (specRaw r p : ℚ) * p.weight

theorem scoreCat_go (points : Nat) (pres : String → Bool) :
    ∀ (cands : List String) (a : Nat) (fs : List String),
      cands.foldl (fun acc c => if pres c then (acc.1 + points, acc.2 ++ [c]) else acc) (a, fs)
      = (a + points * cands.countP pres, fs ++ cands.filter pres) := by
  intro cands
  induction cands with
  | nil => intro a fs; simp
  | cons c rest ih =>
    intro a fs
    cases hp : pres c
    · simp only [List.foldl_cons, hp, Bool.false_eq_true, ite_false, List.countP_cons,
        List.filter_cons, ih]
      simp
    · simp only [List.foldl_cons, hp, ite_true, List.countP_cons, List.filter_cons, ih]
      rw [Prod.mk.injEq]
      refine ⟨by ring, by simp⟩

theorem scoreCat_fst (points : Nat) (cands : List String) (pres : String → Bool) :
    (scoreCat points cands pres).1 = points * cands.countP pres := by
  simp [scoreCat, scoreCat_go]

theorem scoreProfile_fst (r : Repo) (p : Profile) :
    (scoreProfile r p).1 = specRaw r p := by
  cases hm : r.manifest <;>
    simp [scoreProfile, specRaw, hm, scoreCat_fst]

/-- Frameworks and scores accumulated by the detection loop, described via
the specification-side weighted scores. -/
theorem scores_fold_spec (r : Repo) :
    ∀ (l : List (String × Profile)) (acc : List (String × ℚ × Value)),
      l.foldl (fun acc fp =>
        let sd := scoreProfile r fp.2
        let w := (sd.1 : ℚ) * fp.2.weight
        if 0 < w then acc ++ [(fp.1, w, sd.2)] else acc) acc
      = acc ++ l.filterMap (fun fp =>
          if 0 < specWeighted r fp.2 then
            some (fp.1, specWeighted r fp.2, (scoreProfile r fp.2).2)
          else Option.none) := by
  intro l
  induction l with
  | nil => intro acc; simp
  | cons fp rest ih =>
    intro acc
    have hw : ((scoreProfile r fp.2).1 : ℚ) * fp.2.weight = specWeighted r fp.2 := by
      rw [scoreProfile_fst]; rfl
    by_cases h : 0 < specWeighted r fp.2 <;>
      simp only [List.foldl_cons, List.filterMap_cons, hw, h, if_true, if_false, ite_true,
        ite_false, ih] <;> simp [ih]

theorem scoresAndDetails_spec (r : Repo) :
    scoresAndDetails r = detection_patterns.filterMap (fun fp =>
      if 0 < specWeighted r fp.2 then
        some (fp.1, specWeighted r fp.2, (scoreProfile r fp.2).2)
      else Option.none) := by
  unfold scoresAndDetails
  rw [scores_fold_spec r detection_patterns []]
  simp

theorem pythonMax_fold_spec :
    ∀ (l : List (String × ℚ × Value)) (x : String × ℚ × Value),
      (l.foldl (fun best y => if best.2.1 < y.2.1 then y else best) x ∈ x :: l)
      ∧ x.2.1 ≤ (l.foldl (fun best y => if best.2.1 < y.2.1 then y else best) x).2.1
      ∧ ∀ y ∈ l, y.2.1 ≤ (l.foldl (fun best y => if best.2.1 < y.2.1 then y else best) x).2.1 := by
  intro l
  induction l with
  | nil => intro x; simp
  | cons z rest ih =>
    intro x
    simp only [List.foldl_cons]
    obtain ⟨hmem, hle, hall⟩ := ih (if x.2.1 < z.2.1 then z else x)
    have hstep : x.2.1 ≤ (if x.2.1 < z.2.1 then z else x).2.1 := by
      by_cases hxz : x.2.1 < z.2.1
      · simp only [hxz, if_true, ite_true]
        exact le_of_lt hxz
      · simp [hxz]
    have hstepz : z.2.1 ≤ (if x.2.1 < z.2.1 then z else x).2.1 := by
      by_cases hxz : x.2.1 < z.2.1
      · simp [hxz]
      · simp only [hxz, if_false, ite_false]
        exact le_of_not_lt hxz
    refine ⟨?_, le_trans hstep hle, ?_⟩
    · rcases List.mem_cons.mp hmem with h | h
      · by_cases hxz : x.2.1 < z.2.1 <;>
          simp only [hxz, ite_true, ite_false] at h ⊢ <;> simp [h]
      · exact List.mem_cons.mpr (Or.inr (List.mem_cons.mpr (Or.inr h)))
    · intro y hy
      rcases List.mem_cons.mp hy with rfl | hy'
      · exact le_trans hstepz hle
      · exact hall y hy'

theorem pythonMax_some {l : List (String × ℚ × Value)} {m : String × ℚ × Value}
    (h : pythonMax l = some m) : m ∈ l ∧ ∀ y ∈ l, y.2.1 ≤ m.2.1 := by
  cases l with
  | nil => simp [pythonMax] at h
  | cons x rest =>
    simp only [pythonMax, Option.some.injEq] at h
    subst h
    obtain ⟨hmem, hle, hall⟩ := pythonMax_fold_spec rest x
    refine ⟨hmem, fun y hy => ?_⟩
    rcases List.mem_cons.mp hy with rfl | hy'
    · exact hle
    · exact hall y hy'

theorem pythonMax_eq_none {l : List (String × ℚ × Value)} :
    pythonMax l = Option.none ↔ l = [] := by
  cases l <;> simp [pythonMax]

theorem weights_pos : ∀ fp ∈ detection_patterns, 0 < fp.2.weight := by
  intro fp h
  fin_cases h <;> norm_num

theorem detect_framework_of_pythonMax_some {r : Repo} {f : String} {s : ℚ} {d : Value}
    (h : pythonMax (scoresAndDetails r) = some (f, s, d)) :
    detect_framework (some r) = (f, if s / 50 ≤ 1 then s / 50 else 1, d) := by
  have hu : detect_framework (some r)
      = (match pythonMax (scoresAndDetails r) with
         | some (f, s, d) => (f, if s / 50 ≤ 1 then s / 50 else 1, d)
         | Option.none => ("generic", 1/10, .dict .nil)) := rfl
  rw [hu, h]

theorem detect_framework_of_pythonMax_none {r : Repo}
    (h : pythonMax (scoresAndDetails r) = Option.none) :
    detect_framework (some r) = ("generic", 1/10, .dict .nil) := by
  have hu : detect_framework (some r)
      = (match pythonMax (scoresAndDetails r) with
         | some (f, s, d) => (f, if s / 50 ≤ 1 then s / 50 else 1, d)
         | Option.none => ("generic", 1/10, .dict .nil)) := rfl
  rw [hu, h]

/-- C6: for every existing repository, `detect_framework` scores each
framework profile as 3 points per existing marker file, 5 per
profile-listed runtime dependency, 3 per profile-listed dev dependency, 2
per existing config file and 1 per profile-listed build script (captured
by `specRaw` / `specWeighted`, the raw score times the profile weight),
selects a framework attaining the maximum weighted score among the
profiles with positive weighted score with confidence
`min(weighted_score / 50, 1.0)`, and returns `("generic", 0.1, {})` when
no profile scores above zero. -/
theorem detect_framework_scoring (r : Repo) :
    ((∃ fp ∈ detection_patterns, 0 < specRaw r fp.2) →
      ∃ f p d, (f, p) ∈ detection_patterns
        ∧ detect_framework (some r) = (f, min (specWeighted r p / 50) 1, d)
        ∧ 0 < specWeighted r p
        ∧ ∀ fp ∈ detection_patterns, specWeighted r fp.2 ≤ specWeighted r p)
    ∧ ((∀ fp ∈ detection_patterns, specRaw r fp.2 = 0) →
      detect_framework (some r) = ("generic", 1/10, .dict .nil)) := by
  constructor
  · rintro ⟨fp0, hfp0, hpos0⟩
    have hw0 : 0 < specWeighted r fp0.2 :=
      mul_pos (by exact_mod_cast hpos0) (weights_pos fp0 hfp0)
    have hmem0 : (fp0.1, specWeighted r fp0.2, (scoreProfile r fp0.2).2)
        ∈ scoresAndDetails r := by
      rw [scoresAndDetails_spec]
      exact List.mem_filterMap.mpr ⟨fp0, hfp0, by simp [hw0]⟩
    rcases hpm : pythonMax (scoresAndDetails r) with _ | m
    · exfalso
      rw [pythonMax_eq_none] at hpm
      rw [hpm] at hmem0
      simp at hmem0
    · obtain ⟨hmMem, hmMax⟩ := pythonMax_some hpm
      rw [scoresAndDetails_spec] at hmMem
      obtain ⟨fp, hfpMem, hfpEq⟩ := List.mem_filterMap.mp hmMem
      by_cases hfpW : 0 < specWeighted r fp.2
      · rcases m with ⟨f, s, d⟩
        simp only [hfpW, ite_true] at hfpEq
        obtain ⟨hf, hs, hd⟩ : fp.1 = f ∧ specWeighted r fp.2 = s
            ∧ (scoreProfile r fp.2).2 = d := by
          simpa [Prod.ext_iff] using hfpEq
        refine ⟨fp.1, fp.2, (scoreProfile r fp.2).2, by simpa using hfpMem, ?_, hfpW, ?_⟩
        · rw [hf, hs, hd]
          rw [detect_framework_of_pythonMax_some hpm, min_def]
        · intro fp' hfp'
          by_cases h' : 0 < specWeighted r fp'.2
          · have hmem' : (fp'.1, specWeighted r fp'.2, (scoreProfile r fp'.2).2)
                ∈ scoresAndDetails r := by
              rw [scoresAndDetails_spec]
              exact List.mem_filterMap.mpr ⟨fp', hfp', by simp [h']⟩
            have hle := hmMax _ hmem'
            rw [hs]
            simpa using hle
          · exact le_trans (le_of_not_lt h') (le_of_lt hfpW)
      · simp [hfpW] at hfpEq
  · intro hall
    have hempty : scoresAndDetails r = [] := by
      rw [scoresAndDetails_spec]
      refine List.filterMap_eq_nil_iff.mpr (fun fp hfp => ?_)
      have h0 : specRaw r fp.2 = 0 := hall fp hfp
      simp [specWeighted, h0]
    exact detect_framework_of_pythonMax_none (by rw [hempty]; rfl)

/-- Repository of the spec's Angular scenario: `angular.json`,
`src/main.ts`, dependency `@angular/core`, script `build:prod`. -/
def angularRepo : Repo :=
  { files := ["angular.json", "src/main.ts", "package.json"],
    manifest := some
      { name := some "My_App",
        dependencies := ["@angular/core"],
        devDependencies := [],
        scripts := [("build:prod", "ng build --configuration production")] },
    dirName := "my-app",
    hasPackageLock := true }

theorem detect_framework_scoring_witness :
    (∃ fp ∈ detection_patterns, 0 < specRaw angularRepo fp.2)
    ∧ (∃ f p d, (f, p) ∈ detection_patterns
        ∧ detect_framework (some angularRepo) = (f, min (specWeighted angularRepo p / 50) 1, d)
        ∧ 0 < specWeighted angularRepo p
        ∧ ∀ fp ∈ detection_patterns,
            specWeighted angularRepo fp.2 ≤ specWeighted angularRepo p) :=
  ⟨by decide, (detect_framework_scoring angularRepo).1 (by decide)⟩

/-- C3 counterexample: at a non-existing repository path,
`detect_framework` returns the ordinary value `("unknown", 0.0, {})` — it
does not fail with a raised `RepositoryNotFound` error. -/
theorem detect_framework_missing_path_value :
    detect_framework Option.none = ("unknown", 0, .dict .nil) := rfl

/-- C3 amended: `detect_framework` never raises; when `repo_path` does not
exist it returns the ordinary value `("unknown", 0.0, {})`, and for every
existing `repo_path` it returns normally with a framework that is never
`"unknown"` (a profile name or `"generic"`). -/
theorem detect_framework_missing_path_spec :
    detect_framework Option.none = ("unknown", 0, .dict .nil)
    ∧ ∀ r : Repo, (detect_framework (some r)).1 ≠ "unknown" := by
  refine ⟨rfl, fun r => ?_⟩
  rcases hpm : pythonMax (scoresAndDetails r) with _ | m
  · rw [detect_framework_of_pythonMax_none hpm]
    decide
  · rcases m with ⟨f, s, d⟩
    rw [detect_framework_of_pythonMax_some hpm]
    obtain ⟨hmMem, _⟩ := pythonMax_some hpm
    rw [scoresAndDetails_spec] at hmMem
    obtain ⟨fp, hfpMem, hfpEq⟩ := List.mem_filterMap.mp hmMem
    by_cases hg : 0 < specWeighted r fp.2
    · simp only [hg, ite_true, Option.some.injEq] at hfpEq
      have hf : fp.1 = f := congrArg (fun t => t.1) hfpEq
      intro hcontra
      have hfu : f = "unknown" := hcontra
      rw [← hf] at hfu
      fin_cases hfpMem <;> exact absurd hfu (by decide)
    · simp [hg] at hfpEq

/-- Configuration whose `deployment.resources` carries both `limits` and
`requests` (the shape every framework-defaults file of the repository
uses). -/
def cfgBothResources : VDict := VDict.ofList
  [("app", .dict (VDict.ofList [("name", .str "demo")])),
   ("docker", .dict (VDict.ofList [("repository", .str "myorg")])),
   ("deployment", .dict (VDict.ofList
     [("resources", .dict (VDict.ofList
       [("limits", .dict (VDict.ofList
          [("cpu", .str "500m"), ("memory", .str "512Mi")])),
        ("requests", .dict (VDict.ofList
          [("cpu", .str "250m"), ("memory", .str "256Mi")]))]))]))]

/-- The same configuration without a resources section. -/
def cfgNoResources : VDict := VDict.ofList
  [("app", .dict (VDict.ofList [("name", .str "demo")])),
   ("docker", .dict (VDict.ofList [("repository", .str "myorg")]))]

/-- C2: `validate_config` raises `NameError` (the undefined name `both` in
its resource check) on any configuration whose `deployment.resources`
section contains both a `limits` and a `requests` map, instead of
returning normally; on configurations that do not reach that branch it
does annotate the config with the `validation` section. -/
theorem validate_config_raises_on_resources :
    validate_config cfgBothResources = .error (.nameError "both")
    ∧ validate_config cfgNoResources
      = .ok (setKey cfgNoResources "validation" (.dict (VDict.ofList
          [("errors", .list .nil), ("warnings", .list .nil), ("valid", .bool true)]))) :=
  ⟨rfl, rfl⟩

/-- A Build/Container stage collaborator that reports success. -/
def stageSucceeds : VDict → String → StageResult :=
  fun _ _ => ⟨true, Option.none⟩

/-- A Build stage collaborator that reports failure. -/
def buildFailStage : VDict → String → StageResult :=
  fun _ _ => ⟨false, some "compile error"⟩

/-- A Deploy stage collaborator that reports failure. -/
def deployFails : VDict → StageResult :=
  fun _ => ⟨false, some "deploy boom"⟩

/-- A Deploy stage collaborator that reports success. -/
def deploySucceeds : VDict → StageResult :=
  fun _ => ⟨true, Option.none⟩

/-- C5: whenever the Build stage collaborator reports `success=false`,
`process_repository` returns a failure result and the Container stage
collaborator is never invoked (the invocation trace never contains
`"docker"`). -/
theorem process_repository_build_failure (build docker : VDict → String → StageResult)
    (repoExists : Bool) (repoPath : String) (config : VDict)
    (h : (build config repoPath).success = false) :
    (process_repository build docker repoExists repoPath config).1.success = false
    ∧ "docker" ∉ (process_repository build docker repoExists repoPath config).2 := by
  unfold process_repository
  cases repoExists
  · simp [ProcResult.success]
  · cases hsucc : pyTruthy (getD config "success" (.bool true))
    · simp [hsucc, ProcResult.success]
    · rcases happ : configAppFields config with e | nf
      · simp [hsucc, happ, ProcResult.success]
      · rcases nf with ⟨n, fv⟩
        simp [hsucc, happ, h, ProcResult.success]

/-- Valid demo configuration handed to `process_repository`. -/
def cfgDemoApp : VDict := VDict.ofList
  [("app", .dict (VDict.ofList
     [("name", .str "demo"), ("framework", .str "generic")]))]

theorem process_repository_build_failure_witness :
    (buildFailStage cfgDemoApp "/repo").success = false
    ∧ ((process_repository buildFailStage stageSucceeds true "/repo" cfgDemoApp).1.success = false
       ∧ "docker" ∉ (process_repository buildFailStage stageSucceeds true "/repo" cfgDemoApp).2) :=
  ⟨rfl, process_repository_build_failure buildFailStage stageSucceeds true "/repo" cfgDemoApp rfl⟩

theorem setKey_setKey_same (d : VDict) (k : String) (v w : Value) :
    setKey (setKey d k v) k w = setKey d k w := by
  induction d using VDict.spineInduction with
  | hnil => simp [setKey]
  | hcons k0 u rest ih =>
    by_cases h0 : k0 = k <;> simp [setKey, h0, ih]

/-- A key that is either absent or bound to a dictionary (the shapes on
which the merger's section handling cannot raise). -/
def dictOrAbsent (d : VDict) (k : String) : Bool :=
  match alookup d k with
  | Option.none => true
  | some (.dict _) => true
  | some _ => false

theorem autoApp_ok (config original : VDict) (detected : String) (env : Env)
    (a : VDict) (happ : alookup config "app" = some (.dict a))
    (hname : hasKey a "name" = true) :
    autoApp config original detected env
    = .ok (setKey config "app" (.dict (setKey (setKey a "framework" (.str detected))
        "detected_framework" (.str detected)))) := by
  unfold autoApp
  rw [show hasKey config "app" = true from by simp [hasKey, happ]]
  simp only [ite_true]
  rw [show getD config "app" .none = .dict a from by simp [getD, happ]]
  rw [show pyContainsKey "name" (Value.dict a) = .ok true from by
    simp [pyContainsKey, hname]]
  rfl

theorem ebind_ok {ε α β : Type} (a : α) (f : α → Except ε β) :
    (Except.ok a : Except ε α) >>= f = f a := rfl

theorem epure_eq {ε α : Type} (a : α) :
    (pure a : Except ε α) = Except.ok a := rfl

/-- The source dictionary produced by the source-section phase from a
pre-existing source dictionary `s` (written in the exact evaluation order
of the source: the branch default is read from the dictionary that already
carries the updated `repo_url`). -/
def sourceResult (s : VDict) (env : Env) : VDict :=
  let s1 := setKey s "repo_url"
    (match env.repositoryUri with
     | some u => Value.str u
     | Option.none => getD s "repo_url" (.str ""))
  let s2 := setKey s1 "branch"
    (match env.sourceBranchName with
     | some u => Value.str u
     | Option.none => getD s1 "branch" (.str "main"))
  setKey s2 "commit_sha" (.str (env.sourceVersion.getD ""))

theorem autoSource_ok (config : VDict) (env : Env) (s : VDict)
    (hs : alookup config "source" = some (.dict s)) :
    autoSource config env
    = .ok (setKey config "source" (.dict (sourceResult s env)),
           .dict (sourceResult s env)) := by
  unfold autoSource
  rw [show hasKey config "source" = true from by simp [hasKey, hs]]
  simp only [ite_true]
  rw [show getD config "source" .none = .dict s from by simp [getD, hs]]
  rfl

theorem autoSource_ok_absent (config : VDict) (env : Env)
    (hs : alookup config "source" = Option.none) :
    autoSource config env
    = .ok (setKey config "source" (.dict (sourceResult .nil env)),
           .dict (sourceResult .nil env)) := by
  have key : autoSource config env
      = .ok (setKey (setKey config "source" (.dict .nil)) "source"
               (.dict (sourceResult .nil env)),
             .dict (sourceResult .nil env)) := by
    unfold autoSource
    rw [show hasKey config "source" = false from by simp [hasKey, hs]]
    simp only [Bool.false_eq_true, ite_false]
    rw [show getD (setKey config "source" (.dict .nil)) "source" .none
        = .dict .nil from by simp [getD, alookup_setKey_self]]
    rfl
  rw [key, setKey_setKey_same]

theorem sourceResult_commit (s : VDict) (env : Env) :
    alookup (sourceResult s env) "commit_sha"
    = some (.str (env.sourceVersion.getD "")) := by
  simp [sourceResult, alookup_setKey_self]

theorem sourceResult_branch (s : VDict) (env : Env) :
    alookup (sourceResult s env) "branch"
    = some (match env.sourceBranchName with
            | some u => Value.str u
            | Option.none => getD s "branch" (.str "main")) := by
  unfold sourceResult
  rw [alookup_setKey_ne _ _ _ _ (show ("branch" : String) ≠ "commit_sha" from by decide),
    alookup_setKey_self,
    show getD (setKey s "repo_url"
      (match env.repositoryUri with
       | some u => Value.str u
       | Option.none => getD s "repo_url" (.str ""))) "branch" (.str "main")
      = getD s "branch" (.str "main") from by
      simp [getD, alookup_setKey_ne _ _ _ _
        (show ("branch" : String) ≠ "repo_url" from by decide)]]

theorem sourceResult_repo_url (s : VDict) (env : Env) :
    alookup (sourceResult s env) "repo_url"
    = some (match env.repositoryUri with
            | some u => Value.str u
            | Option.none => getD s "repo_url" (.str "")) := by
  unfold sourceResult
  rw [alookup_setKey_ne _ _ _ _ (show ("repo_url" : String) ≠ "commit_sha" from by decide),
    alookup_setKey_ne _ _ _ _ (show ("repo_url" : String) ≠ "branch" from by decide),
    alookup_setKey_self]

theorem sourceResult_id (s : VDict) (env : Env) (ru br : Value)
    (h1 : alookup s "repo_url" = some ru)
    (hru : ∀ u, env.repositoryUri = some u → ru = .str u)
    (h2 : alookup s "branch" = some br)
    (hbr : ∀ u, env.sourceBranchName = some u → br = .str u)
    (h3 : alookup s "commit_sha" = some (.str (env.sourceVersion.getD ""))) :
    sourceResult s env = s := by
  unfold sourceResult
  have e1 : (match env.repositoryUri with
      | some u => Value.str u
      | Option.none => getD s "repo_url" (.str "")) = ru := by
    rcases hv : env.repositoryUri with _ | u
    · simp [getD, h1]
    · exact (hru u hv).symm
  rw [e1, setKey_self s _ _ h1]
  have e2 : (match env.sourceBranchName with
      | some u => Value.str u
      | Option.none => getD s "branch" (.str "main")) = br := by
    rcases hv : env.sourceBranchName with _ | u
    · simp [getD, h2]
    · exact (hbr u hv).symm
  simp only [e2]
  rw [setKey_self s _ _ h2, setKey_self s _ _ h3]

theorem pyStr_str (s : String) : pyStr (.str s) = s := rfl

/-- The docker dictionary produced by the tag recomputation from a docker
dictionary `dd` whose repository and image values are `rv` and `iv`. -/
def dockerResult (dd : VDict) (rv iv : Value) (env : Env) : VDict :=
  let tg := "v" ++ env.buildNumber.getD "local"
  setKey (setKey (setKey dd "tag" (.str tg))
      "full_image" (.str (pyStr rv ++ "/" ++ pyStr iv ++ ":" ++ tg)))
    "latest_image" (.str (pyStr rv ++ "/" ++ pyStr iv ++ ":latest"))

theorem dockerTags_ok (dd : VDict) (env : Env) (rv iv : Value)
    (hrv : alookup dd "repository" = some rv)
    (hiv : alookup dd "image" = some iv) :
    dockerTags (.dict dd) env = .ok (.dict (dockerResult dd rv iv env)) := by
  have h5 : alookup (setKey dd "tag" (.str ("v" ++ env.buildNumber.getD "local")))
      "repository" = some rv := by
    rw [alookup_setKey_ne _ _ _ _ (show ("repository" : String) ≠ "tag" from by decide), hrv]
  have h6 : alookup (setKey dd "tag" (.str ("v" ++ env.buildNumber.getD "local")))
      "image" = some iv := by
    rw [alookup_setKey_ne _ _ _ _ (show ("image" : String) ≠ "tag" from by decide), hiv]
  have h7 : alookup (setKey dd "tag" (.str ("v" ++ env.buildNumber.getD "local")))
      "tag" = some (.str ("v" ++ env.buildNumber.getD "local")) :=
    alookup_setKey_self dd "tag" _
  unfold dockerTags dockerResult
  simp only [setItem, ebind_ok, pyIndex, h5, h6, h7, epure_eq, pyStr_str]

theorem dockerResult_tag (dd : VDict) (rv iv : Value) (env : Env) :
    alookup (dockerResult dd rv iv env) "tag"
    = some (.str ("v" ++ env.buildNumber.getD "local")) := by
  unfold dockerResult
  rw [alookup_setKey_ne _ _ _ _ (show ("tag" : String) ≠ "latest_image" from by decide),
    alookup_setKey_ne _ _ _ _ (show ("tag" : String) ≠ "full_image" from by decide),
    alookup_setKey_self]

theorem dockerResult_full (dd : VDict) (rv iv : Value) (env : Env) :
    alookup (dockerResult dd rv iv env) "full_image"
    = some (.str (pyStr rv ++ "/" ++ pyStr iv ++ ":" ++ ("v" ++ env.buildNumber.getD "local"))) := by
  unfold dockerResult
  rw [alookup_setKey_ne _ _ _ _ (show ("full_image" : String) ≠ "latest_image" from by decide),
    alookup_setKey_self]

theorem dockerResult_latest (dd : VDict) (rv iv : Value) (env : Env) :
    alookup (dockerResult dd rv iv env) "latest_image"
    = some (.str (pyStr rv ++ "/" ++ pyStr iv ++ ":latest")) := by
  unfold dockerResult
  rw [alookup_setKey_self]

theorem dockerResult_other (dd : VDict) (rv iv : Value) (env : Env) (k : String)
    (hk1 : k ≠ "tag") (hk2 : k ≠ "full_image") (hk3 : k ≠ "latest_image") :
    alookup (dockerResult dd rv iv env) k = alookup dd k := by
  unfold dockerResult
  rw [alookup_setKey_ne _ _ _ _ hk3, alookup_setKey_ne _ _ _ _ hk2,
    alookup_setKey_ne _ _ _ _ hk1]

theorem dockerResult_id (dd : VDict) (rv iv : Value) (env : Env)
    (htag : alookup dd "tag" = some (.str ("v" ++ env.buildNumber.getD "local")))
    (hfull : alookup dd "full_image"
      = some (.str (pyStr rv ++ "/" ++ pyStr iv ++ ":" ++ ("v" ++ env.buildNumber.getD "local"))))
    (hlatest : alookup dd "latest_image"
      = some (.str (pyStr rv ++ "/" ++ pyStr iv ++ ":latest"))) :
    dockerResult dd rv iv env = dd := by
  simp only [dockerResult]
  rw [setKey_self dd _ _ htag, setKey_self dd _ _ hfull, setKey_self dd _ _ hlatest]

theorem autoDocker_ok_present (config : VDict) (env : Env) (gc : VDict) (d : VDict)
    (rv iv : Value)
    (hd : alookup config "docker" = some (.dict d))
    (hrv : alookup d "repository" = some rv)
    (hiv : alookup d "image" = some iv) :
    autoDocker config env gc
    = .ok (setKey config "docker" (.dict (dockerResult d rv iv env))) := by
  unfold autoDocker
  rw [show hasKey config "docker" = true from by simp [hasKey, hd]]
  simp only [ite_true]
  unfold autoDockerCore
  rw [show getD config "docker" .none = .dict d from by simp [getD, hd]]
  simp only []
  rw [show pyContainsKey "repository" (Value.dict d) = .ok true from by
    simp [pyContainsKey, hasKey, hrv]]
  rw [ebind_ok]
  simp only [ite_true, epure_eq, ebind_ok]
  rw [show pyContainsKey "image" (Value.dict d) = .ok true from by
    simp [pyContainsKey, hasKey, hiv]]
  rw [ebind_ok]
  simp only [ite_true, epure_eq, ebind_ok]
  rw [dockerTags_ok d env rv iv hrv hiv, ebind_ok]

theorem autoDeployment_ok_skip (config : VDict) (sourceV : Value) (p : VDict)
    (hp : alookup config "deployment" = some (.dict p))
    (hns : hasKey p "namespace" = true)
    (henv : hasKey p "environment" = true) :
    autoDeployment config sourceV = .ok (setKey config "deployment" (.dict p)) := by
  unfold autoDeployment
  rw [show hasKey config "deployment" = true from by simp [hasKey, hp]]
  simp only [ite_true]
  rw [show getD config "deployment" .none = .dict p from by simp [getD, hp]]
  rw [show pyContainsKey "namespace" (Value.dict p) = .ok true from by
    simp [pyContainsKey, hns]]
  rw [ebind_ok]
  simp only [ite_true, epure_eq, ebind_ok]
  rw [show pyContainsKey "environment" (Value.dict p) = .ok true from by
    simp [pyContainsKey, henv]]
  rw [ebind_ok]
  simp only [ite_true, epure_eq, ebind_ok]

theorem autoDeployment_sets_env (config : VDict) (S : VDict) (p : VDict)
    (a : VDict) (nm : Value)
    (hp : alookup config "deployment" = some (.dict p))
    (henv : hasKey p "environment" = false)
    (happ : alookup config "app" = some (.dict a))
    (hnm : alookup a "name" = some nm) :
    ∃ p', autoDeployment config (.dict S) = .ok (setKey config "deployment" (.dict p'))
      ∧ alookup p' "environment"
          = some (.str (pyBranchEnv (getD S "branch" (.str "unknown"))))
      ∧ ∀ k, k ≠ "environment" → k ≠ "namespace" → alookup p' k = alookup p k := by
  by_cases hns : hasKey p "namespace" = true
  · refine ⟨setKey p "environment" (.str (pyBranchEnv (getD S "branch" (.str "unknown")))),
      ?_, alookup_setKey_self _ _ _, fun k hk1 _ => alookup_setKey_ne _ _ _ _ hk1⟩
    unfold autoDeployment
    rw [show hasKey config "deployment" = true from by simp [hasKey, hp]]
    simp only [ite_true]
    rw [show getD config "deployment" .none = .dict p from by simp [getD, hp]]
    rw [show pyContainsKey "namespace" (Value.dict p) = .ok true from by
      simp [pyContainsKey, hns]]
    rw [ebind_ok]
    simp only [ite_true, epure_eq, ebind_ok]
    rw [show pyContainsKey "environment" (Value.dict p) = .ok false from by
      simp [pyContainsKey, henv]]
    rw [ebind_ok]
    simp only [Bool.false_eq_true, ite_false, epure_eq, ebind_ok]
    rfl
  · rw [Bool.not_eq_true] at hns
    refine ⟨setKey (setKey p "namespace" nm) "environment"
        (.str (pyBranchEnv (getD S "branch" (.str "unknown")))),
      ?_, alookup_setKey_self _ _ _, fun k hk1 hk2 =>
        by rw [alookup_setKey_ne _ _ _ _ hk1, alookup_setKey_ne _ _ _ _ hk2]⟩
    unfold autoDeployment
    rw [show hasKey config "deployment" = true from by simp [hasKey, hp]]
    simp only [ite_true]
    rw [show getD config "deployment" .none = .dict p from by simp [getD, hp]]
    rw [show pyContainsKey "namespace" (Value.dict p) = .ok false from by
      simp [pyContainsKey, hns]]
    rw [ebind_ok]
    simp only [Bool.false_eq_true, ite_false, epure_eq, ebind_ok]
    rw [show getD config "app" .none = .dict a from by simp [getD, happ]]
    rw [show pyIndex (Value.dict a) "name" = .ok nm from by simp [pyIndex, hnm]]
    rw [ebind_ok]
    simp only [setItem, ebind_ok]
    rw [show pyContainsKey "environment" (Value.dict (setKey p "namespace" nm)) = .ok false
        from by
      simp [pyContainsKey, hasKey,
        alookup_setKey_ne _ _ _ _ (show ("environment" : String) ≠ "namespace" from by decide),
        show alookup p "environment" = Option.none from by
          rcases h : alookup p "environment" with _ | v
          · rfl
          · rw [hasKey, h] at henv
            simp at henv]]
    rw [ebind_ok]
    simp only [Bool.false_eq_true, ite_false, epure_eq, ebind_ok]
    rfl

theorem autoDeployment_sets_env_absent (config : VDict) (S : VDict)
    (a : VDict) (nm : Value)
    (hp : alookup config "deployment" = Option.none)
    (happ : alookup config "app" = some (.dict a))
    (hnm : alookup a "name" = some nm) :
    ∃ p', autoDeployment config (.dict S) = .ok (setKey config "deployment" (.dict p'))
      ∧ alookup p' "environment"
          = some (.str (pyBranchEnv (getD S "branch" (.str "unknown")))) := by
  refine ⟨setKey (setKey .nil "namespace" nm) "environment"
      (.str (pyBranchEnv (getD S "branch" (.str "unknown")))),
    ?_, alookup_setKey_self _ _ _⟩
  have key : autoDeployment config (.dict S)
      = .ok (setKey (setKey config "deployment" (.dict .nil)) "deployment"
          (.dict (setKey (setKey .nil "namespace" nm) "environment"
            (.str (pyBranchEnv (getD S "branch" (.str "unknown"))))))) := by
    unfold autoDeployment
    rw [show hasKey config "deployment" = false from by simp [hasKey, hp]]
    simp only [Bool.false_eq_true, ite_false]
    rw [show getD (setKey config "deployment" (.dict .nil)) "deployment" .none
        = .dict .nil from by simp [getD, alookup_setKey_self]]
    rw [show getD (setKey config "deployment" (.dict .nil)) "app" .none = .dict a from by
      simp [getD, alookup_setKey_ne _ _ _ _
        (show ("app" : String) ≠ "deployment" from by decide), happ]]
    rw [show pyIndex (Value.dict a) "name" = .ok nm from by simp [pyIndex, hnm]]
    rfl
  rw [key, setKey_setKey_same]

theorem autoDeployment_ok_general (config : VDict) (S : VDict) (a : VDict) (nm : Value)
    (hdep : dictOrAbsent config "deployment" = true)
    (happ : alookup config "app" = some (.dict a))
    (hnm : alookup a "name" = some nm) :
    ∃ p', autoDeployment config (.dict S) = .ok (setKey config "deployment" (.dict p')) := by
  rcases hd : alookup config "deployment" with _ | v
  · obtain ⟨p', h, _⟩ := autoDeployment_sets_env_absent config S a nm hd happ hnm
    exact ⟨p', h⟩
  · have hv : ∃ p, v = Value.dict p := by
      cases v <;> first
        | exact ⟨_, rfl⟩
        | simp [dictOrAbsent, hd] at hdep
    obtain ⟨p, rfl⟩ := hv
    by_cases he : hasKey p "environment" = true
    · by_cases hns : hasKey p "namespace" = true
      · exact ⟨p, autoDeployment_ok_skip config (.dict S) p hd hns he⟩
      · rw [Bool.not_eq_true] at hns
        refine ⟨setKey p "namespace" nm, ?_⟩
        unfold autoDeployment
        rw [show hasKey config "deployment" = true from by simp [hasKey, hd]]
        simp only [ite_true]
        rw [show getD config "deployment" .none = .dict p from by simp [getD, hd]]
        rw [show pyContainsKey "namespace" (Value.dict p) = .ok false from by
          simp [pyContainsKey, hns]]
        rw [ebind_ok]
        simp only [Bool.false_eq_true, ite_false, epure_eq, ebind_ok]
        rw [show getD config "app" .none = .dict a from by simp [getD, happ]]
        rw [show pyIndex (Value.dict a) "name" = .ok nm from by simp [pyIndex, hnm]]
        rw [ebind_ok]
        simp only [setItem, ebind_ok]
        rw [show pyContainsKey "environment" (Value.dict (setKey p "namespace" nm))
            = .ok true from by
          simp [pyContainsKey, hasKey,
            alookup_setKey_ne _ _ _ _
              (show ("environment" : String) ≠ "namespace" from by decide)]
          simpa [hasKey] using he]
        rw [ebind_ok]
        simp only [ite_true, epure_eq, ebind_ok]
    · rw [Bool.not_eq_true] at he
      obtain ⟨p', h, _, _⟩ := autoDeployment_sets_env config S p a nm hd he happ hnm
      exact ⟨p', h⟩


theorem autoDockerCore_ok (config : VDict) (env : Env) (gc : VDict)
    (dd : VDict) (G : VDict) (a : VDict) (nm : Value)
    (hcd : alookup config "docker" = some (.dict dd))
    (hG : getD gc "docker" (.dict .nil) = .dict G)
    (happ : alookup config "app" = some (.dict a))
    (hnm : alookup a "name" = some nm) :
    ∃ d', autoDockerCore config env gc = .ok (setKey config "docker" (.dict d')) := by
  have hpcR : ∀ Y : VDict, pyContainsKey "repository" (Value.dict Y)
      = .ok (hasKey Y "repository") := fun _ => rfl
  have hpcI : ∀ Y : VDict, pyContainsKey "image" (Value.dict Y)
      = .ok (hasKey Y "image") := fun _ => rfl
  unfold autoDockerCore
  rw [show getD config "docker" .none = .dict dd from by simp [getD, hcd]]
  simp only []
  by_cases hr : hasKey dd "repository" = true
  · obtain ⟨rv, hrv⟩ : ∃ rv, alookup dd "repository" = some rv := by
      rcases h : alookup dd "repository" with _ | rv
      · rw [hasKey, h] at hr
        simp at hr
      · exact ⟨rv, rfl⟩
    rw [hpcR, hr, ebind_ok]
    simp only [ite_true, epure_eq, ebind_ok]
    by_cases hi : hasKey dd "image" = true
    · obtain ⟨iv, hiv⟩ : ∃ iv, alookup dd "image" = some iv := by
        rcases h : alookup dd "image" with _ | iv
        · rw [hasKey, h] at hi
          simp at hi
        · exact ⟨iv, rfl⟩
      rw [hpcI, hi, ebind_ok]
      simp only [ite_true, epure_eq, ebind_ok]
      rw [dockerTags_ok dd env rv iv hrv hiv, ebind_ok]
      exact ⟨_, rfl⟩
    · rw [Bool.not_eq_true] at hi
      rw [hpcI, hi, ebind_ok]
      simp only [Bool.false_eq_true, ite_false, epure_eq, ebind_ok]
      rw [show getD config "app" .none = .dict a from by simp [getD, happ]]
      rw [show pyIndex (Value.dict a) "name" = .ok nm from by simp [pyIndex, hnm]]
      rw [ebind_ok]
      simp only [setItem, ebind_ok]
      rw [dockerTags_ok (setKey dd "image" nm) env rv nm
        (by rw [alookup_setKey_ne _ _ _ _
            (show ("repository" : String) ≠ "image" from by decide)]; exact hrv)
        (alookup_setKey_self _ _ _), ebind_ok]
      exact ⟨_, rfl⟩
  · rw [Bool.not_eq_true] at hr
    rw [hpcR, hr, ebind_ok]
    simp only [Bool.false_eq_true, ite_false, epure_eq, ebind_ok]
    rw [hG]
    simp only [pyDictGet, ebind_ok, setItem]
    generalize (match env.dockerRepository with
      | some s => Value.str s
      | Option.none => getD G "organization" (Value.str "myorg")) = X
    have hKI : hasKey (setKey dd "repository" X) "image" = hasKey dd "image" := by
      rw [hasKey, hasKey, alookup_setKey_ne _ _ _ _
        (show ("image" : String) ≠ "repository" from by decide)]
    by_cases hi : hasKey dd "image" = true
    · obtain ⟨iv, hiv⟩ : ∃ iv, alookup dd "image" = some iv := by
        rcases h : alookup dd "image" with _ | iv
        · rw [hasKey, h] at hi
          simp at hi
        · exact ⟨iv, rfl⟩
      rw [hpcI, hKI, hi, ebind_ok]
      simp only [ite_true, epure_eq, ebind_ok]
      rw [dockerTags_ok (setKey dd "repository" X) env X iv (alookup_setKey_self _ _ _)
        (by rw [alookup_setKey_ne _ _ _ _
          (show ("image" : String) ≠ "repository" from by decide)]; exact hiv), ebind_ok]
      exact ⟨_, rfl⟩
    · rw [Bool.not_eq_true] at hi
      rw [hpcI, hKI, hi, ebind_ok]
      simp only [Bool.false_eq_true, ite_false, epure_eq, ebind_ok]
      rw [show getD config "app" .none = .dict a from by simp [getD, happ]]
      rw [show pyIndex (Value.dict a) "name" = .ok nm from by simp [pyIndex, hnm]]
      rw [ebind_ok]
      simp only [setItem, ebind_ok]
      rw [dockerTags_ok (setKey (setKey dd "repository" X) "image" nm) env X nm
        (by rw [alookup_setKey_ne _ _ _ _
            (show ("repository" : String) ≠ "image" from by decide)]; exact
            alookup_setKey_self _ _ _)
        (alookup_setKey_self _ _ _), ebind_ok]
      exact ⟨_, rfl⟩

theorem autoDocker_ok_general (config : VDict) (env : Env) (gc : VDict)
    (a : VDict) (nm : Value)
    (hdok : dictOrAbsent config "docker" = true)
    (hgc : dictOrAbsent gc "docker" = true)
    (happ : alookup config "app" = some (.dict a))
    (hnm : alookup a "name" = some nm) :
    ∃ d', autoDocker config env gc = .ok (setKey config "docker" (.dict d')) := by
  obtain ⟨G, hG⟩ : ∃ G : VDict, getD gc "docker" (.dict .nil) = .dict G := by
    rcases hg : alookup gc "docker" with _ | gv
    · exact ⟨.nil, by simp [getD, hg]⟩
    · cases gv with
      | none => simp [dictOrAbsent, hg] at hgc
      | bool b => simp [dictOrAbsent, hg] at hgc
      | num q => simp [dictOrAbsent, hg] at hgc
      | str s => simp [dictOrAbsent, hg] at hgc
      | list xs => simp [dictOrAbsent, hg] at hgc
      | dict g => exact ⟨g, by simp [getD, hg]⟩
  unfold autoDocker
  rcases hcd : alookup config "docker" with _ | v
  · rw [show hasKey config "docker" = false from by simp [hasKey, hcd]]
    simp only [Bool.false_eq_true, ite_false]
    have h2 : alookup (setKey config "docker" (.dict .nil)) "docker"
        = some (.dict .nil) := alookup_setKey_self _ _ _
    have h3 : alookup (setKey config "docker" (.dict .nil)) "app" = some (.dict a) := by
      rw [alookup_setKey_ne _ _ _ _ (show ("app" : String) ≠ "docker" from by decide)]
      exact happ
    obtain ⟨d', hd'⟩ := autoDockerCore_ok (setKey config "docker" (.dict .nil)) env gc
      .nil G a nm h2 hG h3 hnm
    refine ⟨d', ?_⟩
    rw [hd', setKey_setKey_same]
  · cases v with
    | none => simp [dictOrAbsent, hcd] at hdok
    | bool b => simp [dictOrAbsent, hcd] at hdok
    | num q => simp [dictOrAbsent, hcd] at hdok
    | str s => simp [dictOrAbsent, hcd] at hdok
    | list xs => simp [dictOrAbsent, hcd] at hdok
    | dict dd =>
      rw [show hasKey config "docker" = true from by simp [hasKey, hcd]]
      simp only [ite_true]
      exact autoDockerCore_ok config env gc dd G a nm hcd hG happ hnm

theorem deep_merge_nil (c : VDict) : deep_merge c .nil = c := rfl

theorem dictOrAbsent_setKey_ne (c : VDict) (k k' : String) (v : Value) (h : k' ≠ k) :
    dictOrAbsent (setKey c k v) k' = dictOrAbsent c k' := by
  rw [dictOrAbsent, dictOrAbsent, alookup_setKey_ne _ _ _ _ h]

/-- C9 amended: during `_add_auto_detected_values`, `source.repo_url` and
`source.branch` are taken from their environment variables when set and
otherwise fall back to the pre-existing values (defaults `""` / `"main"`),
but `source.commit_sha` is always overwritten with the source-version
variable or `""` — a pre-existing `commit_sha` is not preserved when the
variable is unset. -/
theorem merge_source_fields (config original : VDict) (detected : String) (env : Env)
    (gc : VDict) (a : VDict) (nm : Value) (s : VDict)
    (happ : alookup config "app" = some (.dict a))
    (hnm : alookup a "name" = some nm)
    (hs : alookup config "source" = some (.dict s))
    (hdok : dictOrAbsent config "docker" = true)
    (hgc : dictOrAbsent gc "docker" = true)
    (hdep : dictOrAbsent config "deployment" = true) :
    ∃ c', add_auto_detected_values config original detected env gc = .ok c'
      ∧ ∃ S, alookup c' "source" = some (.dict S)
        ∧ alookup S "repo_url" = some (match env.repositoryUri with
            | some u => Value.str u
            | Option.none => getD s "repo_url" (.str ""))
        ∧ alookup S "branch" = some (match env.sourceBranchName with
            | some u => Value.str u
            | Option.none => getD s "branch" (.str "main"))
        ∧ alookup S "commit_sha" = some (.str (env.sourceVersion.getD "")) := by
  have hname : hasKey a "name" = true := by simp [hasKey, hnm]
  unfold add_auto_detected_values
  rw [autoApp_ok config original detected env a happ hname, ebind_ok]
  have ha2 : alookup (setKey (setKey a "framework" (.str detected))
      "detected_framework" (.str detected)) "name" = some nm := by
    rw [alookup_setKey_ne _ _ _ _ (show ("name" : String) ≠ "detected_framework" from by decide),
      alookup_setKey_ne _ _ _ _ (show ("name" : String) ≠ "framework" from by decide)]
    exact hnm
  have hc1app : alookup (setKey config "app" (.dict (setKey (setKey a "framework"
      (.str detected)) "detected_framework" (.str detected)))) "app"
      = some (.dict (setKey (setKey a "framework" (.str detected))
          "detected_framework" (.str detected))) := alookup_setKey_self _ _ _
  have hc1src : alookup (setKey config "app" (.dict (setKey (setKey a "framework"
      (.str detected)) "detected_framework" (.str detected)))) "source"
      = some (.dict s) := by
    rw [alookup_setKey_ne _ _ _ _ (show ("source" : String) ≠ "app" from by decide)]
    exact hs
  rw [autoSource_ok _ env s hc1src, ebind_ok]
  simp only []
  set c1 := setKey config "app" (.dict (setKey (setKey a "framework" (.str detected))
    "detected_framework" (.str detected))) with hc1def
  set c2 := setKey c1 "source" (.dict (sourceResult s env)) with hc2def
  have hc2app : alookup c2 "app" = some (.dict (setKey (setKey a "framework"
      (.str detected)) "detected_framework" (.str detected))) := by
    rw [hc2def, alookup_setKey_ne _ _ _ _ (show ("app" : String) ≠ "source" from by decide)]
    exact hc1app
  have hc2dok : dictOrAbsent c2 "docker" = true := by
    rw [hc2def, dictOrAbsent_setKey_ne _ _ _ _ (show ("docker" : String) ≠ "source" from by decide),
      hc1def, dictOrAbsent_setKey_ne _ _ _ _ (show ("docker" : String) ≠ "app" from by decide)]
    exact hdok
  obtain ⟨d', hd'⟩ := autoDocker_ok_general c2 env gc _ nm hc2dok hgc hc2app ha2
  rw [hd', ebind_ok]
  set c3 := setKey c2 "docker" (.dict d') with hc3def
  have hc3app : alookup c3 "app" = some (.dict (setKey (setKey a "framework"
      (.str detected)) "detected_framework" (.str detected))) := by
    rw [hc3def, alookup_setKey_ne _ _ _ _ (show ("app" : String) ≠ "docker" from by decide)]
    exact hc2app
  have hc3dep : dictOrAbsent c3 "deployment" = true := by
    rw [hc3def, dictOrAbsent_setKey_ne _ _ _ _
        (show ("deployment" : String) ≠ "docker" from by decide),
      hc2def, dictOrAbsent_setKey_ne _ _ _ _
        (show ("deployment" : String) ≠ "source" from by decide),
      hc1def, dictOrAbsent_setKey_ne _ _ _ _
        (show ("deployment" : String) ≠ "app" from by decide)]
    exact hdep
  obtain ⟨p', hp'⟩ := autoDeployment_ok_general c3 (sourceResult s env) _ nm hc3dep hc3app ha2
  rw [hp']
  refine ⟨_, rfl, sourceResult s env, ?_, sourceResult_repo_url s env,
    sourceResult_branch s env, sourceResult_commit s env⟩
  rw [alookup_setKey_ne _ _ _ _ (show ("source" : String) ≠ "deployment" from by decide),
    hc3def, alookup_setKey_ne _ _ _ _ (show ("source" : String) ≠ "docker" from by decide),
    hc2def]
  exact alookup_setKey_self _ _ _

theorem pyBranchEnv_production (v : Value) (h : v = .str "main" ∨ v = .str "master") :
    pyBranchEnv v = "production" := by
  rcases h with rfl | rfl <;> rfl

theorem pyBranchEnv_staging (v : Value) (h : v = .str "develop") :
    pyBranchEnv v = "staging" := by
  subst h
  rfl

theorem pyBranchEnv_development (v : Value) (h1 : v ≠ .str "main")
    (h2 : v ≠ .str "master") (h3 : v ≠ .str "develop") :
    pyBranchEnv v = "development" := by
  cases v with
  | str s =>
    have hs1 : ¬s = "main" := fun he => h1 (by rw [he])
    have hs2 : ¬s = "master" := fun he => h2 (by rw [he])
    have hs3 : ¬s = "develop" := fun he => h3 (by rw [he])
    simp [pyBranchEnv, isStrEq, hs1, hs2, hs3]
  | none => rfl
  | bool b => rfl
  | num q => rfl
  | list xs => rfl
  | dict es => rfl

/-- C10: for every configuration in which `deployment.environment` was not
explicitly provided, the merge derives it from `source.branch` by the
exact mapping: `main`/`master` yield production, `develop` yields staging
and any other branch yields development. -/
theorem merge_sets_environment (config original : VDict) (detected : String) (env : Env)
    (gc : VDict) (a : VDict) (nm : Value)
    (happ : alookup config "app" = some (.dict a))
    (hnm : alookup a "name" = some nm)
    (hsrc : dictOrAbsent config "source" = true)
    (hdok : dictOrAbsent config "docker" = true)
    (hgc : dictOrAbsent gc "docker" = true)
    (hdep : alookup config "deployment" = Option.none
      ∨ ∃ p, alookup config "deployment" = some (.dict p) ∧ hasKey p "environment" = false) :
    ∃ c' S p' b, add_auto_detected_values config original detected env gc = .ok c'
      ∧ alookup c' "source" = some (.dict S)
      ∧ alookup S "branch" = some b
      ∧ alookup c' "deployment" = some (.dict p')
      ∧ alookup p' "environment" = some (.str (pyBranchEnv b))
      ∧ (∀ v : Value, (v = .str "main" ∨ v = .str "master") → pyBranchEnv v = "production")
      ∧ (∀ v : Value, v = .str "develop" → pyBranchEnv v = "staging")
      ∧ (∀ v : Value, v ≠ .str "main" → v ≠ .str "master" → v ≠ .str "develop" →
          pyBranchEnv v = "development") := by
  have hname : hasKey a "name" = true := by simp [hasKey, hnm]
  unfold add_auto_detected_values
  rw [autoApp_ok config original detected env a happ hname, ebind_ok]
  have ha2 : alookup (setKey (setKey a "framework" (.str detected))
      "detected_framework" (.str detected)) "name" = some nm := by
    rw [alookup_setKey_ne _ _ _ _ (show ("name" : String) ≠ "detected_framework" from by decide),
      alookup_setKey_ne _ _ _ _ (show ("name" : String) ≠ "framework" from by decide)]
    exact hnm
  set a2 := setKey (setKey a "framework" (.str detected))
    "detected_framework" (.str detected) with ha2def
  set c1 := setKey config "app" (.dict a2) with hc1def
  have hc1app : alookup c1 "app" = some (.dict a2) := alookup_setKey_self _ _ _
  have hc1src : dictOrAbsent c1 "source" = true := by
    rw [hc1def, dictOrAbsent_setKey_ne _ _ _ _ (show ("source" : String) ≠ "app" from by decide)]
    exact hsrc
  obtain ⟨s, hsrcEq⟩ : ∃ s, autoSource c1 env
      = .ok (setKey c1 "source" (.dict (sourceResult s env)), .dict (sourceResult s env)) := by
    rcases hsv : alookup c1 "source" with _ | v
    · exact ⟨.nil, autoSource_ok_absent c1 env hsv⟩
    · cases v with
      | none => simp [dictOrAbsent, hsv] at hc1src
      | bool b => simp [dictOrAbsent, hsv] at hc1src
      | num q => simp [dictOrAbsent, hsv] at hc1src
      | str s => simp [dictOrAbsent, hsv] at hc1src
      | list xs => simp [dictOrAbsent, hsv] at hc1src
      | dict sd => exact ⟨sd, autoSource_ok c1 env sd hsv⟩
  rw [hsrcEq, ebind_ok]
  simp only []
  set c2 := setKey c1 "source" (.dict (sourceResult s env)) with hc2def
  have hc2app : alookup c2 "app" = some (.dict a2) := by
    rw [hc2def, alookup_setKey_ne _ _ _ _ (show ("app" : String) ≠ "source" from by decide)]
    exact hc1app
  have hc2dok : dictOrAbsent c2 "docker" = true := by
    rw [hc2def, dictOrAbsent_setKey_ne _ _ _ _ (show ("docker" : String) ≠ "source" from by decide),
      hc1def, dictOrAbsent_setKey_ne _ _ _ _ (show ("docker" : String) ≠ "app" from by decide)]
    exact hdok
  obtain ⟨d', hd'⟩ := autoDocker_ok_general c2 env gc _ nm hc2dok hgc hc2app ha2
  rw [hd', ebind_ok]
  set c3 := setKey c2 "docker" (.dict d') with hc3def
  have hc3app : alookup c3 "app" = some (.dict a2) := by
    rw [hc3def, alookup_setKey_ne _ _ _ _ (show ("app" : String) ≠ "docker" from by decide)]
    exact hc2app
  have hc3dep : alookup c3 "deployment" = alookup config "deployment" := by
    rw [hc3def, alookup_setKey_ne _ _ _ _
        (show ("deployment" : String) ≠ "docker" from by decide),
      hc2def, alookup_setKey_ne _ _ _ _
        (show ("deployment" : String) ≠ "source" from by decide),
      hc1def, alookup_setKey_ne _ _ _ _
        (show ("deployment" : String) ≠ "app" from by decide)]
  have hbr : alookup (sourceResult s env) "branch"
      = some (match env.sourceBranchName with
              | some u => Value.str u
              | Option.none => getD s "branch" (.str "main")) := sourceResult_branch s env
  have hgetD : getD (sourceResult s env) "branch" (.str "unknown")
      = (match env.sourceBranchName with
         | some u => Value.str u
         | Option.none => getD s "branch" (.str "main")) := by
    rw [getD, hbr]
    rfl
  have hsrcC3 : alookup c3 "source" = some (.dict (sourceResult s env)) := by
    rw [hc3def, alookup_setKey_ne _ _ _ _ (show ("source" : String) ≠ "docker" from by decide),
      hc2def]
    exact alookup_setKey_self _ _ _
  rcases hdep with hnone | ⟨p, hpEq, hpenv⟩
  · obtain ⟨p', hp', hpe⟩ := autoDeployment_sets_env_absent c3 (sourceResult s env) a2 nm
      (by rw [hc3dep]; exact hnone) hc3app ha2
    rw [hp']
    refine ⟨_, sourceResult s env, p', _, rfl, ?_, hbr, alookup_setKey_self _ _ _, ?_,
      pyBranchEnv_production, pyBranchEnv_staging, pyBranchEnv_development⟩
    · rw [alookup_setKey_ne _ _ _ _ (show ("source" : String) ≠ "deployment" from by decide)]
      exact hsrcC3
    · rw [hpe, hgetD]
  · obtain ⟨p', hp', hpe, _⟩ := autoDeployment_sets_env c3 (sourceResult s env) p a2 nm
      (by rw [hc3dep]; exact hpEq) hpenv hc3app ha2
    rw [hp']
    refine ⟨_, sourceResult s env, p', _, rfl, ?_, hbr, alookup_setKey_self _ _ _, ?_,
      pyBranchEnv_production, pyBranchEnv_staging, pyBranchEnv_development⟩
    · rw [alookup_setKey_ne _ _ _ _ (show ("source" : String) ≠ "deployment" from by decide)]
      exact hsrcC3
    · rw [hpe, hgetD]

/-- The app section shared by the concrete merger scenarios. -/
def appDemo : VDict := VDict.ofList [("name", .str "demo")]

/-- A pre-existing source section carrying a commit SHA. -/
def sSrcPre : VDict := VDict.ofList
  [("repo_url", .str "https://example.com/repo.git"), ("branch", .str "main"),
   ("commit_sha", .str "deadbeef")]

/-- A merged-layers configuration whose source section already holds a
commit SHA, handed to the auto-detected-values pass with no CI variables
set. -/
def cfgSourcePre : VDict := VDict.ofList
  [("app", .dict appDemo),
   ("source", .dict sSrcPre),
   ("docker", .dict (VDict.ofList [("repository", .str "myorg"), ("image", .str "demo")])),
   ("deployment", .dict (VDict.ofList
     [("namespace", .str "demo"), ("environment", .str "production")]))]

theorem merge_source_fields_witness :
    alookup cfgSourcePre "source" = some (.dict sSrcPre)
    ∧ (∃ c', add_auto_detected_values cfgSourcePre .nil "generic" Env.empty .nil = .ok c'
        ∧ ∃ S, alookup c' "source" = some (.dict S)
          ∧ alookup S "repo_url" = some (match Env.empty.repositoryUri with
              | some u => Value.str u
              | Option.none => getD sSrcPre "repo_url" (.str ""))
          ∧ alookup S "branch" = some (match Env.empty.sourceBranchName with
              | some u => Value.str u
              | Option.none => getD sSrcPre "branch" (.str "main"))
          ∧ alookup S "commit_sha" = some (.str (Env.empty.sourceVersion.getD ""))) :=
  ⟨rfl, merge_source_fields cfgSourcePre .nil "generic" Env.empty .nil appDemo
    (.str "demo") sSrcPre rfl rfl rfl rfl rfl rfl⟩

/-- C9 counterexample: with the source-version variable unset, the merge
overwrites a pre-existing `source.commit_sha` (here `"deadbeef"`) with the
empty string instead of preserving it. -/
theorem commit_sha_not_preserved :
    (∃ c' S, add_auto_detected_values cfgSourcePre .nil "generic" Env.empty .nil = .ok c'
      ∧ alookup c' "source" = some (.dict S)
      ∧ alookup S "commit_sha" = some (.str ""))
    ∧ alookup sSrcPre "commit_sha" = some (.str "deadbeef")
    ∧ Value.str "" ≠ Value.str "deadbeef" :=
  ⟨⟨_, _, rfl, rfl, rfl⟩, rfl,
   by intro h; injection h with h'; exact absurd h' (by decide)⟩

/-- A source section naming the develop branch. -/
def sDevelop : VDict := VDict.ofList [("branch", .str "develop")]

/-- A merged-layers configuration on the develop branch without an
explicit deployment environment. -/
def cfgDevelop : VDict := VDict.ofList
  [("app", .dict appDemo), ("source", .dict sDevelop),
   ("docker", .dict (VDict.ofList [("repository", .str "r"), ("image", .str "i")]))]

theorem merge_sets_environment_witness :
    alookup cfgDevelop "deployment" = Option.none
    ∧ (∃ c' S p' b, add_auto_detected_values cfgDevelop .nil "generic" Env.empty .nil = .ok c'
        ∧ alookup c' "source" = some (.dict S)
        ∧ alookup S "branch" = some b
        ∧ alookup c' "deployment" = some (.dict p')
        ∧ alookup p' "environment" = some (.str (pyBranchEnv b))
        ∧ (∀ v : Value, (v = .str "main" ∨ v = .str "master") → pyBranchEnv v = "production")
        ∧ (∀ v : Value, v = .str "develop" → pyBranchEnv v = "staging")
        ∧ (∀ v : Value, v ≠ .str "main" → v ≠ .str "master" → v ≠ .str "develop" →
            pyBranchEnv v = "development")) :=
  ⟨rfl, merge_sets_environment cfgDevelop .nil "generic" Env.empty .nil appDemo
    (.str "demo") rfl rfl rfl rfl rfl (Or.inl rfl)⟩

/- ### C8: re-merge and the build number -/

/-- Two-level lookup: the value at `k2` inside the dictionary stored at
`k1` (`config[k1][k2]` when `config[k1]` is a dictionary). -/
def dget2 (c : VDict) (k1 k2 : String) : Option Value :=
  match alookup c k1 with
  | some (.dict d) => alookup d k2
  | _ => Option.none

theorem str_append_left_cancel (a b c : String) (h : a ++ b = a ++ c) : b = c := by
  have hd := congrArg String.data h
  simp only [String.data_append] at hd
  exact String.ext (List.append_cancel_left hd)

/-- C8 amended: re-merging an already-merged, already-auto-detected
configuration with an empty `app_config` layer is the identity when the
build-number variable is unchanged; changing the build-number variable and
re-merging changes `docker.tag`, `docker.full_image` and the `build_info`
block, while `docker.latest_image` (which does not mention the build
number) and every section other than `docker` and `build_info` are
unchanged. -/
theorem remerge_build_number (c gc : VDict) (detected : String) (env1 env2 : Env)
    (a s d p : VDict) (ru br rv iv : Value) (n1 n2 : String)
    (henv2 : env2 = { env1 with buildNumber := some n2 })
    (hn1 : env1.buildNumber = some n1)
    (hn1ne : n1 ≠ "") (hn2ne : n2 ≠ "") (hneq : n1 ≠ n2)
    (happ : alookup c "app" = some (.dict a))
    (haN : hasKey a "name" = true)
    (haF : alookup a "framework" = some (.str detected))
    (haD : alookup a "detected_framework" = some (.str detected))
    (hsrc : alookup c "source" = some (.dict s))
    (hsr : alookup s "repo_url" = some ru)
    (hruF : ∀ u, env1.repositoryUri = some u → ru = .str u)
    (hsb : alookup s "branch" = some br)
    (hbrF : ∀ u, env1.sourceBranchName = some u → br = .str u)
    (hsc : alookup s "commit_sha" = some (.str (env1.sourceVersion.getD "")))
    (hdok : alookup c "docker" = some (.dict d))
    (hdr : alookup d "repository" = some rv)
    (hdi : alookup d "image" = some iv)
    (hdt : alookup d "tag" = some (.str ("v" ++ n1)))
    (hdf : alookup d "full_image"
      = some (.str (pyStr rv ++ "/" ++ pyStr iv ++ ":" ++ ("v" ++ n1))))
    (hdl : alookup d "latest_image"
      = some (.str (pyStr rv ++ "/" ++ pyStr iv ++ ":latest")))
    (hdep : alookup c "deployment" = some (.dict p))
    (hpn : hasKey p "namespace" = true)
    (hpe : hasKey p "environment" = true)
    (hbi : alookup c "build_info" = some (.dict (build_info_block env1))) :
    remerge c detected env1 gc = .ok c
    ∧ ∃ c2, remerge c detected env2 gc = .ok c2
      ∧ dget2 c2 "docker" "tag" = some (.str ("v" ++ n2))
      ∧ dget2 c2 "docker" "tag" ≠ dget2 c "docker" "tag"
      ∧ dget2 c2 "docker" "full_image" ≠ dget2 c "docker" "full_image"
      ∧ dget2 c2 "docker" "latest_image" = dget2 c "docker" "latest_image"
      ∧ alookup c2 "build_info" ≠ alookup c "build_info"
      ∧ ∀ k, k ≠ "docker" → k ≠ "build_info" → alookup c2 k = alookup c k := by
  subst henv2
  have hdt1 : alookup d "tag" = some (.str ("v" ++ env1.buildNumber.getD "local")) := by
    rw [hn1]; exact hdt
  have hdf1 : alookup d "full_image"
      = some (.str (pyStr rv ++ "/" ++ pyStr iv ++ ":"
          ++ ("v" ++ env1.buildNumber.getD "local"))) := by
    rw [hn1]; exact hdf
  have hA : remerge c detected env1 gc = .ok c := by
    unfold remerge
    rw [deep_merge_nil]
    rw [show add_environment_overrides c env1 = c from by
      unfold add_environment_overrides
      rw [show pyTruthyOpt env1.buildNumber = true from by
        rw [hn1]; simp [pyTruthyOpt, hn1ne]]
      simp only [ite_true]
      exact setKey_self c _ _ hbi]
    unfold add_auto_detected_values
    rw [autoApp_ok c .nil detected env1 a happ haN, ebind_ok,
      setKey_self a _ _ haF, setKey_self a _ _ haD, setKey_self c _ _ happ,
      autoSource_ok c env1 s hsrc, ebind_ok]
    simp only []
    rw [sourceResult_id s env1 ru br hsr hruF hsb hbrF hsc,
      setKey_self c _ _ hsrc,
      autoDocker_ok_present c env1 gc d rv iv hdok hdr hdi, ebind_ok,
      dockerResult_id d rv iv env1 hdt1 hdf1 hdl,
      setKey_self c _ _ hdok,
      autoDeployment_ok_skip c (.dict s) p hdep hpn hpe,
      setKey_self c _ _ hdep]
  have hover2 : add_environment_overrides c { env1 with buildNumber := some n2 }
      = setKey c "build_info"
          (.dict (build_info_block { env1 with buildNumber := some n2 })) := by
    unfold add_environment_overrides
    rw [show pyTruthyOpt ({ env1 with buildNumber := some n2 } : Env).buildNumber = true from by
      show pyTruthyOpt (some n2) = true
      simp [pyTruthyOpt, hn2ne]]
    simp only [ite_true]
  set B2 := build_info_block { env1 with buildNumber := some n2 } with hB2def
  set cB := setKey c "build_info" (.dict B2) with hcBdef
  have hBapp : alookup cB "app" = some (.dict a) := by
    rw [hcBdef, alookup_setKey_ne _ _ _ _ (show ("app" : String) ≠ "build_info" from by decide)]
    exact happ
  have hBsrc : alookup cB "source" = some (.dict s) := by
    rw [hcBdef, alookup_setKey_ne _ _ _ _ (show ("source" : String) ≠ "build_info" from by decide)]
    exact hsrc
  have hBdok : alookup cB "docker" = some (.dict d) := by
    rw [hcBdef, alookup_setKey_ne _ _ _ _ (show ("docker" : String) ≠ "build_info" from by decide)]
    exact hdok
  have hruF2 : ∀ u, ({ env1 with buildNumber := some n2 } : Env).repositoryUri = some u
      → ru = .str u := hruF
  have hbrF2 : ∀ u, ({ env1 with buildNumber := some n2 } : Env).sourceBranchName = some u
      → br = .str u := hbrF
  have hsc2 : alookup s "commit_sha"
      = some (.str (({ env1 with buildNumber := some n2 } : Env).sourceVersion.getD "")) := hsc
  have hDR : dockerResult d rv iv { env1 with buildNumber := some n2 }
      = setKey (setKey d "tag" (.str ("v" ++ n2)))
          "full_image" (.str (pyStr rv ++ "/" ++ pyStr iv ++ ":" ++ ("v" ++ n2))) := by
    have hkey : dockerResult d rv iv { env1 with buildNumber := some n2 }
        = setKey (setKey (setKey d "tag" (.str ("v" ++ n2)))
            "full_image" (.str (pyStr rv ++ "/" ++ pyStr iv ++ ":" ++ ("v" ++ n2))))
          "latest_image" (.str (pyStr rv ++ "/" ++ pyStr iv ++ ":latest")) := rfl
    rw [hkey]
    refine setKey_self _ _ _ ?_
    rw [alookup_setKey_ne _ _ _ _ (show ("latest_image" : String) ≠ "full_image" from by decide),
      alookup_setKey_ne _ _ _ _ (show ("latest_image" : String) ≠ "tag" from by decide)]
    exact hdl
  set d2 := setKey (setKey d "tag" (.str ("v" ++ n2)))
    "full_image" (.str (pyStr rv ++ "/" ++ pyStr iv ++ ":" ++ ("v" ++ n2))) with hd2def
  have hBDdep : alookup (setKey cB "docker" (.dict d2)) "deployment" = some (.dict p) := by
    rw [alookup_setKey_ne _ _ _ _ (show ("deployment" : String) ≠ "docker" from by decide),
      hcBdef,
      alookup_setKey_ne _ _ _ _ (show ("deployment" : String) ≠ "build_info" from by decide)]
    exact hdep
  have hB : remerge c detected { env1 with buildNumber := some n2 } gc
      = .ok (setKey cB "docker" (.dict d2)) := by
    unfold remerge
    rw [deep_merge_nil, hover2]
    unfold add_auto_detected_values
    rw [autoApp_ok cB .nil detected { env1 with buildNumber := some n2 } a hBapp haN, ebind_ok,
      setKey_self a _ _ haF, setKey_self a _ _ haD, setKey_self cB _ _ hBapp,
      autoSource_ok cB { env1 with buildNumber := some n2 } s hBsrc, ebind_ok]
    simp only []
    rw [sourceResult_id s { env1 with buildNumber := some n2 } ru br hsr hruF2 hsb hbrF2 hsc2,
      setKey_self cB _ _ hBsrc,
      autoDocker_ok_present cB { env1 with buildNumber := some n2 } gc d rv iv hBdok hdr hdi,
      ebind_ok, hDR,
      autoDeployment_ok_skip _ (.dict s) p hBDdep hpn hpe,
      setKey_self _ _ _ hBDdep]
  have hlook2 : ∀ k2 : String, dget2 (setKey cB "docker" (.dict d2)) "docker" k2
      = alookup d2 k2 := by
    intro k2
    unfold dget2
    rw [alookup_setKey_self]
  have hlookc : ∀ k2 : String, dget2 c "docker" k2 = alookup d k2 := by
    intro k2
    unfold dget2
    rw [hdok]
  have hd2tag : alookup d2 "tag" = some (.str ("v" ++ n2)) := by
    rw [hd2def, alookup_setKey_ne _ _ _ _ (show ("tag" : String) ≠ "full_image" from by decide),
      alookup_setKey_self]
  have hd2full : alookup d2 "full_image"
      = some (.str (pyStr rv ++ "/" ++ pyStr iv ++ ":" ++ ("v" ++ n2))) := by
    rw [hd2def, alookup_setKey_self]
  have hd2latest : alookup d2 "latest_image" = alookup d "latest_image" := by
    rw [hd2def,
      alookup_setKey_ne _ _ _ _ (show ("latest_image" : String) ≠ "full_image" from by decide),
      alookup_setKey_ne _ _ _ _ (show ("latest_image" : String) ≠ "tag" from by decide)]
  refine ⟨hA, setKey cB "docker" (.dict d2), hB, ?_, ?_, ?_, ?_, ?_, ?_⟩
  · rw [hlook2, hd2tag]
  · rw [hlook2, hlookc, hd2tag, hdt]
    intro h
    injection h with h1
    injection h1 with h2
    exact hneq (str_append_left_cancel "v" n2 n1 h2).symm
  · rw [hlook2, hlookc, hd2full, hdf]
    intro h
    injection h with h1
    injection h1 with h2
    exact hneq (str_append_left_cancel "v" n2 n1 (str_append_left_cancel _ _ _ h2)).symm
  · rw [hlook2, hlookc]
    exact hd2latest
  · have hc2bi : alookup (setKey cB "docker" (.dict d2)) "build_info" = some (.dict B2) := by
      rw [alookup_setKey_ne _ _ _ _ (show ("build_info" : String) ≠ "docker" from by decide),
        hcBdef, alookup_setKey_self]
    rw [hc2bi, hbi]
    intro h
    injection h with h1
    injection h1 with h2
    have e2 : alookup B2 "build_number" = some (.str n2) := by
      rw [hB2def]
      rfl
    have e1 : alookup (build_info_block env1) "build_number"
        = some (.str (env1.buildNumber.getD "")) := rfl
    rw [hn1] at e1
    have h3 : some (Value.str n2) = some (.str ((some n1).getD "")) := by
      rw [← e2, ← e1, h2]
    injection h3 with h4
    injection h4 with h5
    exact hneq h5.symm
  · intro k hk1 hk2
    rw [alookup_setKey_ne _ _ _ _ hk1, hcBdef, alookup_setKey_ne _ _ _ _ hk2]

/-- The CI environment of the first build: build number `"1"`, everything
else unset. -/
def envB1 : Env := { Env.empty with buildNumber := some "1" }

/-- The CI environment of the rebuild: build number `"2"`, everything else
unset. -/
def envB2 : Env := { Env.empty with buildNumber := some "2" }

/-- The docker section of an already-merged configuration built under
build number `"1"`. -/
def dRemerged : VDict := VDict.ofList
  [("repository", .str "myorg"), ("image", .str "demo"),
   ("tag", .str "v1"), ("full_image", .str "myorg/demo:v1"),
   ("latest_image", .str "myorg/demo:latest")]

/-- The app section of the already-merged configuration. -/
def aRemerged : VDict := VDict.ofList
  [("name", .str "demo"), ("framework", .str "react"),
   ("detected_framework", .str "react")]

/-- The source section of the already-merged configuration. -/
def sRemerged : VDict := VDict.ofList
  [("repo_url", .str ""), ("branch", .str "main"), ("commit_sha", .str "")]

/-- The deployment section of the already-merged configuration. -/
def pRemerged : VDict := VDict.ofList
  [("namespace", .str "demo"), ("environment", .str "production")]

/-- An already-merged, already-auto-detected configuration produced under
build number `"1"`. -/
def cRemerged : VDict := VDict.ofList
  [("app", .dict aRemerged), ("source", .dict sRemerged),
   ("docker", .dict dRemerged), ("deployment", .dict pRemerged),
   ("build_info", .dict (build_info_block envB1))]

/-- C8 counterexample: re-merging the build-number-1 configuration under
build number `"2"` changes `docker.tag` but leaves `docker.latest_image`
unchanged (the claim says both image strings change), and it also changes
the `build_info` block (the claim says nothing besides the docker tag and
images changes). -/
theorem remerge_latest_image_unchanged :
    ∃ c2, remerge cRemerged "react" envB2 VDict.nil = .ok c2
      ∧ dget2 c2 "docker" "tag" ≠ dget2 cRemerged "docker" "tag"
      ∧ dget2 c2 "docker" "latest_image" = dget2 cRemerged "docker" "latest_image"
      ∧ alookup c2 "build_info" ≠ alookup cRemerged "build_info" :=
  ⟨_, rfl, by decide, by decide, by decide⟩

theorem remerge_build_number_witness :
    alookup cRemerged "docker" = some (.dict dRemerged)
    ∧ (remerge cRemerged "react" envB1 VDict.nil = .ok cRemerged
      ∧ ∃ c2, remerge cRemerged "react" envB2 VDict.nil = .ok c2
        ∧ dget2 c2 "docker" "tag" = some (.str ("v" ++ "2"))
        ∧ dget2 c2 "docker" "tag" ≠ dget2 cRemerged "docker" "tag"
        ∧ dget2 c2 "docker" "full_image" ≠ dget2 cRemerged "docker" "full_image"
        ∧ dget2 c2 "docker" "latest_image" = dget2 cRemerged "docker" "latest_image"
        ∧ alookup c2 "build_info" ≠ alookup cRemerged "build_info"
        ∧ ∀ k, k ≠ "docker" → k ≠ "build_info" →
            alookup c2 k = alookup cRemerged k) :=
  ⟨rfl, remerge_build_number cRemerged VDict.nil "react" envB1 envB2
    aRemerged sRemerged dRemerged pRemerged (.str "") (.str "main")
    (.str "myorg") (.str "demo") "1" "2"
    rfl rfl (by decide) (by decide) (by decide)
    rfl rfl rfl rfl rfl rfl (fun u h => nomatch h) rfl (fun u h => nomatch h)
    rfl rfl rfl rfl rfl rfl rfl rfl rfl rfl rfl⟩

/- ### C1: validation.valid and the processing stages -/

theorem process_repository_ok (build docker : VDict → String → StageResult)
    (repoPath : String) (config : VDict) (a : VDict) (nm f : Value)
    (hnosucc : alookup config "success" = Option.none)
    (happ : alookup config "app" = some (.dict a))
    (hnm : alookup a "name" = some nm)
    (hf : alookup a "framework" = some f)
    (hb : (build config repoPath).success = true)
    (hd : (docker config repoPath).success = true) :
    process_repository build docker true repoPath config
    = (.ok (build config repoPath) (docker config repoPath) nm f, ["build", "docker"]) := by
  have hcf : configAppFields config = .ok (nm, f) := by
    unfold configAppFields
    rw [show pyIndex (Value.dict config) "app" = .ok (.dict a) from by simp [pyIndex, happ],
      ebind_ok,
      show pyIndex (Value.dict a) "name" = .ok nm from by simp [pyIndex, hnm], ebind_ok,
      show pyIndex (Value.dict a) "framework" = .ok f from by simp [pyIndex, hf], ebind_ok]
  unfold process_repository
  rw [show getD config "success" (.bool true) = Value.bool true from by simp [getD, hnosucc],
    hcf]
  simp only [pyTruthy, Bool.not_true, Bool.not_false, Bool.false_eq_true, ite_false, ite_true]
  simp only [hb, hd, Bool.not_true, Bool.false_eq_true, ite_false]

/-- C1: a configuration whose `validation.valid` field is `false` (and
which, like every merged configuration, carries no `success` key) is
processed anyway — `process_repository` invokes both the Build and the
Container stage and returns a `success=true` result. -/
theorem process_repository_ignores_invalid (build docker : VDict → String → StageResult)
    (repoPath : String) (config : VDict) (v a : VDict) (nm f : Value)
    (hval : alookup config "validation" = some (.dict v))
    (hvalid : alookup v "valid" = some (.bool false))
    (hnosucc : alookup config "success" = Option.none)
    (happ : alookup config "app" = some (.dict a))
    (hnm : alookup a "name" = some nm)
    (hf : alookup a "framework" = some f)
    (hb : (build config repoPath).success = true)
    (hd : (docker config repoPath).success = true) :
    (process_repository build docker true repoPath config).2 = ["build", "docker"]
    ∧ ((process_repository build docker true repoPath config).1).success = true := by
  rw [process_repository_ok build docker repoPath config a nm f hnosucc happ hnm hf hb hd]
  exact ⟨rfl, rfl⟩

/-- The validation block recording a failed validation. -/
def vInvalid : VDict := VDict.ofList
  [("errors", .list (VList.ofList [.str "docker.repository is required"])),
   ("warnings", .list (VList.ofList [])),
   ("valid", .bool false)]

/-- The app section of the invalid configuration. -/
def appInvalid : VDict := VDict.ofList
  [("name", .str "demo"), ("framework", .str "react")]

/-- A validated configuration whose `validation.valid` is `false`. -/
def cfgInvalid : VDict := VDict.ofList
  [("app", .dict appInvalid),
   ("docker", .dict (VDict.ofList [("repository", .str "")])),
   ("validation", .dict vInvalid)]

theorem process_repository_ignores_invalid_witness :
    alookup vInvalid "valid" = some (.bool false)
    ∧ ((process_repository stageSucceeds stageSucceeds true "/r" cfgInvalid).2
        = ["build", "docker"]
      ∧ ((process_repository stageSucceeds stageSucceeds true "/r" cfgInvalid).1).success
        = true) :=
  ⟨rfl, process_repository_ignores_invalid stageSucceeds stageSucceeds "/r" cfgInvalid
    vInvalid appInvalid (.str "demo") (.str "react") rfl rfl rfl rfl rfl rfl rfl rfl⟩

/- ### C4: full_pipeline short-circuiting and the Deploy stage -/

/-- A repository with no marker files and no `package.json`. -/
def emptyRepo : Repo := ⟨[], Option.none, "app", false⟩

theorem scoresAndDetails_empty : scoresAndDetails emptyRepo = [] := by
  rw [scoresAndDetails_spec]
  rw [List.filterMap_eq_nil_iff]
  intro fp hfp
  have hz : specRaw emptyRepo fp.2 = 0 := by fin_cases hfp <;> rfl
  simp [specWeighted, hz]

theorem detect_generic_empty :
    detect_framework (some emptyRepo) = ("generic", 1/10, .dict .nil) :=
  detect_framework_of_pythonMax_none (by rw [scoresAndDetails_empty]; rfl)

theorem autoDeployment_ok_absent (config : VDict) (S : VDict) (a : VDict) (nm : Value)
    (hp : alookup config "deployment" = Option.none)
    (happ : alookup config "app" = some (.dict a))
    (hnm : alookup a "name" = some nm) :
    autoDeployment config (.dict S)
    = .ok (setKey config "deployment" (.dict (setKey (setKey .nil "namespace" nm)
        "environment" (.str (pyBranchEnv (getD S "branch" (.str "unknown"))))))) := by
  have key : autoDeployment config (.dict S)
      = .ok (setKey (setKey config "deployment" (.dict .nil)) "deployment"
          (.dict (setKey (setKey .nil "namespace" nm) "environment"
            (.str (pyBranchEnv (getD S "branch" (.str "unknown"))))))) := by
    unfold autoDeployment
    rw [show hasKey config "deployment" = false from by simp [hasKey, hp]]
    simp only [Bool.false_eq_true, ite_false]
    rw [show getD (setKey config "deployment" (.dict .nil)) "deployment" .none
        = .dict .nil from by simp [getD, alookup_setKey_self]]
    rw [show getD (setKey config "deployment" (.dict .nil)) "app" .none = .dict a from by
      simp [getD, alookup_setKey_ne _ _ _ _
        (show ("app" : String) ≠ "deployment" from by decide), happ]]
    rw [show pyIndex (Value.dict a) "name" = .ok nm from by simp [pyIndex, hnm]]
    rfl
  rw [key, setKey_setKey_same]

theorem analyze_only_ok (r : Repo) (repoPath : String) (env : Env)
    (fw : String) (conf : ℚ) (det : Value)
    (hdf : detect_framework (some r) = (fw, conf, det))
    (hbn : env.buildNumber = Option.none) :
    ∃ c' a', analyze_only (some r) repoPath .nil [] env = .ok c' fw conf
      ∧ alookup c' "success" = Option.none
      ∧ alookup c' "app" = some (.dict a')
      ∧ alookup a' "name" = some (.str (extract_app_name r env))
      ∧ alookup a' "framework" = some (.str fw) := by
  unfold analyze_only
  simp only []
  rw [hdf]
  simp only []
  set nmS := extract_app_name r env with hnmS
  set bs := detect_build_strategy r fw with hbsdef
  set aB := VDict.ofList [("name", Value.str nmS), ("framework", Value.str fw)] with haBdef
  set BASE := VDict.ofList
    [("app", .dict aB),
     ("detection", .dict (VDict.ofList
       [("framework", Value.str fw), ("confidence", Value.num conf), ("details", det)])),
     ("build_strategy", Value.dict bs)] with hBASE
  have hm0 : merge_config .nil [] BASE fw env
      = add_auto_detected_values (deep_merge VDict.nil BASE) BASE fw env VDict.nil := by
    unfold merge_config
    simp only []
    rw [show deep_merge (deep_merge VDict.nil VDict.nil)
        ((slookup ([] : List (String × VDict)) fw).getD VDict.nil) = VDict.nil from rfl]
    rw [show add_environment_overrides (deep_merge VDict.nil BASE) env
        = deep_merge VDict.nil BASE from by
      unfold add_environment_overrides
      rw [hbn]
      rfl]
  have hnodup : BASE.keys.Nodup := by
    have hk : BASE.keys = ["app", "detection", "build_strategy"] := by
      rw [hBASE]
      rfl
    rw [hk]
    decide
  have hmb : ∀ k, alookup (deep_merge VDict.nil BASE) k = alookup BASE k := by
    intro k
    have hid : ∀ x : Option Value, mergedValue (alookup VDict.nil k) x = x := by
      intro x
      rcases x with _ | v
      · rfl
      · cases v <;> rfl
    rw [deep_merge_alookup BASE VDict.nil hnodup k, hid]
  set M := deep_merge VDict.nil BASE with hM
  have hMapp : alookup M "app" = some (.dict aB) := by rw [hmb, hBASE]; rfl
  have hMsrc : alookup M "source" = Option.none := by rw [hmb, hBASE]; rfl
  have hMdok : alookup M "docker" = Option.none := by rw [hmb, hBASE]; rfl
  have hMdep : alookup M "deployment" = Option.none := by rw [hmb, hBASE]; rfl
  have hMsucc : alookup M "success" = Option.none := by rw [hmb, hBASE]; rfl
  have haBnm : alookup aB "name" = some (.str nmS) := by rw [haBdef]; rfl
  have haN : hasKey aB "name" = true := by simp [hasKey, haBnm]
  set a2 := setKey (setKey aB "framework" (.str fw)) "detected_framework" (.str fw) with ha2def
  have ha2nm : alookup a2 "name" = some (.str nmS) := by
    rw [ha2def,
      alookup_setKey_ne _ _ _ _ (show ("name" : String) ≠ "detected_framework" from by decide),
      alookup_setKey_ne _ _ _ _ (show ("name" : String) ≠ "framework" from by decide)]
    exact haBnm
  have ha2fw : alookup a2 "framework" = some (.str fw) := by
    rw [ha2def,
      alookup_setKey_ne _ _ _ _
        (show ("framework" : String) ≠ "detected_framework" from by decide),
      alookup_setKey_self]
  have hc1 : autoApp M BASE fw env = .ok (setKey M "app" (.dict a2)) :=
    autoApp_ok M BASE fw env aB hMapp haN
  set c1 := setKey M "app" (.dict a2) with hc1def
  have hc1app : alookup c1 "app" = some (.dict a2) := alookup_setKey_self _ _ _
  have hc1src : alookup c1 "source" = Option.none := by
    rw [hc1def, alookup_setKey_ne _ _ _ _ (show ("source" : String) ≠ "app" from by decide)]
    exact hMsrc
  have hc1dok : alookup c1 "docker" = Option.none := by
    rw [hc1def, alookup_setKey_ne _ _ _ _ (show ("docker" : String) ≠ "app" from by decide)]
    exact hMdok
  have hc1dep : alookup c1 "deployment" = Option.none := by
    rw [hc1def, alookup_setKey_ne _ _ _ _ (show ("deployment" : String) ≠ "app" from by decide)]
    exact hMdep
  have hc1succ : alookup c1 "success" = Option.none := by
    rw [hc1def, alookup_setKey_ne _ _ _ _ (show ("success" : String) ≠ "app" from by decide)]
    exact hMsucc
  set S := sourceResult .nil env with hSdef
  have hc2 : autoSource c1 env = .ok (setKey c1 "source" (.dict S), .dict S) :=
    autoSource_ok_absent c1 env hc1src
  set c2 := setKey c1 "source" (.dict S) with hc2def
  have hc2app : alookup c2 "app" = some (.dict a2) := by
    rw [hc2def, alookup_setKey_ne _ _ _ _ (show ("app" : String) ≠ "source" from by decide)]
    exact hc1app
  have hc2dok : alookup c2 "docker" = Option.none := by
    rw [hc2def, alookup_setKey_ne _ _ _ _ (show ("docker" : String) ≠ "source" from by decide)]
    exact hc1dok
  have hc2dep : alookup c2 "deployment" = Option.none := by
    rw [hc2def,
      alookup_setKey_ne _ _ _ _ (show ("deployment" : String) ≠ "source" from by decide)]
    exact hc1dep
  have hc2succ : alookup c2 "success" = Option.none := by
    rw [hc2def, alookup_setKey_ne _ _ _ _ (show ("success" : String) ≠ "source" from by decide)]
    exact hc1succ
  have hdokAbs : dictOrAbsent c2 "docker" = true := by simp [dictOrAbsent, hc2dok]
  obtain ⟨d', hd'⟩ := autoDocker_ok_general c2 env VDict.nil a2 (.str nmS)
    hdokAbs rfl hc2app ha2nm
  set c3 := setKey c2 "docker" (.dict d') with hc3def
  have hc3app : alookup c3 "app" = some (.dict a2) := by
    rw [hc3def, alookup_setKey_ne _ _ _ _ (show ("app" : String) ≠ "docker" from by decide)]
    exact hc2app
  have hc3dok : alookup c3 "docker" = some (.dict d') := alookup_setKey_self _ _ _
  have hc3dep : alookup c3 "deployment" = Option.none := by
    rw [hc3def,
      alookup_setKey_ne _ _ _ _ (show ("deployment" : String) ≠ "docker" from by decide)]
    exact hc2dep
  have hc3succ : alookup c3 "success" = Option.none := by
    rw [hc3def, alookup_setKey_ne _ _ _ _ (show ("success" : String) ≠ "docker" from by decide)]
    exact hc2succ
  have hp' : autoDeployment c3 (.dict S)
      = .ok (setKey c3 "deployment" (.dict (setKey (setKey .nil "namespace" (.str nmS))
          "environment" (.str (pyBranchEnv (getD S "branch" (.str "unknown"))))))) :=
    autoDeployment_ok_absent c3 S a2 (.str nmS) hc3dep hc3app ha2nm
  set P := setKey (setKey .nil "namespace" (.str nmS))
    "environment" (.str (pyBranchEnv (getD S "branch" (.str "unknown")))) with hPdef
  set c4 := setKey c3 "deployment" (.dict P) with hc4def
  have hAuto : add_auto_detected_values M BASE fw env VDict.nil = .ok c4 := by
    unfold add_auto_detected_values
    rw [hc1, ebind_ok, hc2, ebind_ok]
    simp only []
    rw [hd', ebind_ok, hp']
  have hc4app : alookup c4 "app" = some (.dict a2) := by
    rw [hc4def,
      alookup_setKey_ne _ _ _ _ (show ("app" : String) ≠ "deployment" from by decide)]
    exact hc3app
  have hc4dok : alookup c4 "docker" = some (.dict d') := by
    rw [hc4def,
      alookup_setKey_ne _ _ _ _ (show ("docker" : String) ≠ "deployment" from by decide)]
    exact hc3dok
  have hc4dep : alookup c4 "deployment" = some (.dict P) := alookup_setKey_self _ _ _
  have hc4succ : alookup c4 "success" = Option.none := by
    rw [hc4def,
      alookup_setKey_ne _ _ _ _ (show ("success" : String) ≠ "deployment" from by decide)]
    exact hc3succ
  have hPres : alookup P "resources" = Option.none := by
    rw [hPdef,
      alookup_setKey_ne _ _ _ _ (show ("resources" : String) ≠ "environment" from by decide),
      alookup_setKey_ne _ _ _ _ (show ("resources" : String) ≠ "namespace" from by decide)]
    rfl
  have hvalEx : ∃ cv, validate_config c4 = .ok cv
      ∧ alookup cv "success" = Option.none
      ∧ alookup cv "app" = some (.dict a2) := by
    unfold validate_config
    rw [show getD c4 "app" (.dict .nil) = .dict a2 from by simp [getD, hc4app]]
    simp only [pyDictGet, ebind_ok]
    rw [show getD c4 "docker" (.dict .nil) = .dict d' from by simp [getD, hc4dok]]
    simp only [pyDictGet, ebind_ok]
    rw [show hasKey c4 "deployment" = true from by simp [hasKey, hc4dep]]
    simp only [ite_true]
    rw [show getD c4 "deployment" .none = .dict P from by simp [getD, hc4dep]]
    rw [show pyContainsKey "resources" (Value.dict P) = .ok false from by
      simp [pyContainsKey, hasKey, hPres]]
    rw [ebind_ok]
    simp only [Bool.false_eq_true, ite_false, epure_eq, ebind_ok]
    refine ⟨_, rfl, ?_, ?_⟩
    · rw [alookup_setKey_ne _ _ _ _
        (show ("success" : String) ≠ "validation" from by decide)]
      exact hc4succ
    · rw [alookup_setKey_ne _ _ _ _ (show ("app" : String) ≠ "validation" from by decide)]
      exact hc4app
  obtain ⟨cv, hcv, hcvsucc, hcvapp⟩ := hvalEx
  have hmc : merge_config .nil [] BASE fw env = .ok c4 := by rw [hm0]; exact hAuto
  rw [hmc, ebind_ok, hcv]
  simp only []
  exact ⟨cv, a2, rfl, hcvsucc, hcvapp, ha2nm, ha2fw⟩

/-- C4 counterexample: running the full pipeline with deploy requested on a
repository whose analysis and processing succeed but whose Deploy stage
reports `success=false` still returns a `success=true` result — the deploy
failure is attached, not short-circuited on, and the caller does not see a
failure result. -/
theorem full_pipeline_deploy_failure_ignored :
    ∃ config,
      analyze_only (some emptyRepo) "/r" VDict.nil [] Env.empty
        = .ok config "generic" (1/10)
      ∧ (full_pipeline stageSucceeds stageSucceeds deployFails (some emptyRepo) "/r"
          VDict.nil [] Env.empty true).1.success = true
      ∧ (full_pipeline stageSucceeds stageSucceeds deployFails (some emptyRepo) "/r"
          VDict.nil [] Env.empty true).1.deployment = some (deployFails config)
      ∧ (deployFails config).success = false := by
  obtain ⟨c', a', hA, hsucc, happ, hnm, hfw⟩ :=
    analyze_only_ok emptyRepo "/r" Env.empty "generic" (1/10) (.dict .nil)
      detect_generic_empty rfl
  have hpr : process_repository stageSucceeds stageSucceeds true "/r" c'
      = (.ok (stageSucceeds c' "/r") (stageSucceeds c' "/r")
          (.str (extract_app_name emptyRepo Env.empty)) (.str "generic"),
         ["build", "docker"]) :=
    process_repository_ok stageSucceeds stageSucceeds "/r" c' a' _ _
      hsucc happ hnm hfw rfl rfl
  have hfp : full_pipeline stageSucceeds stageSucceeds deployFails (some emptyRepo) "/r"
      VDict.nil [] Env.empty true
      = (.completed (.ok c' "generic" (1/10))
          (.ok (stageSucceeds c' "/r") (stageSucceeds c' "/r")
            (.str (extract_app_name emptyRepo Env.empty)) (.str "generic"))
          (some (deployFails c')), ["build", "docker", "deploy"]) := by
    unfold full_pipeline
    rw [hA]
    simp only []
    rw [show Option.isSome (some emptyRepo) = true from rfl, hpr]
    simp only [ProcResult.success, Bool.not_true, Bool.false_eq_true, ite_false, ite_true]
    rfl
  refine ⟨c', hA, ?_, ?_, rfl⟩
  · rw [hfp]
    rfl
  · rw [hfp]
    rfl

/-- C4 amended: `full_pipeline` short-circuits on an analysis failure and on
a processing failure, returning those failure results unchanged; the Deploy
stage result however is never checked: when deploy is requested and
analysis and processing succeed, the returned value has `success=true` and
merely attaches the deploy result, whatever its success flag. -/
theorem full_pipeline_short_circuit :
    (∀ (build docker : VDict → String → StageResult) (deployRun : VDict → StageResult)
        (repo : Option Repo) (repoPath : String) (gc : VDict)
        (fd : List (String × VDict)) (env : Env) (deploy : Bool) (e : String),
      analyze_only repo repoPath gc fd env = .failed e →
      full_pipeline build docker deployRun repo repoPath gc fd env deploy
        = (.analysisFailed (.failed e), []))
    ∧ (∀ (build docker : VDict → String → StageResult) (deployRun : VDict → StageResult)
        (repo : Option Repo) (repoPath : String) (gc : VDict)
        (fd : List (String × VDict)) (env : Env) (deploy : Bool) (config : VDict)
        (framework : String) (confidence : ℚ),
      analyze_only repo repoPath gc fd env = .ok config framework confidence →
      (process_repository build docker repo.isSome repoPath config).1.success = false →
      full_pipeline build docker deployRun repo repoPath gc fd env deploy
        = (.processFailed (process_repository build docker repo.isSome repoPath config).1,
           (process_repository build docker repo.isSome repoPath config).2))
    ∧ (∀ (build docker : VDict → String → StageResult) (deployRun : VDict → StageResult)
        (repo : Option Repo) (repoPath : String) (gc : VDict)
        (fd : List (String × VDict)) (env : Env) (config : VDict)
        (framework : String) (confidence : ℚ),
      analyze_only repo repoPath gc fd env = .ok config framework confidence →
      (process_repository build docker repo.isSome repoPath config).1.success = true →
      (full_pipeline build docker deployRun repo repoPath gc fd env true).1.success = true
      ∧ (full_pipeline build docker deployRun repo repoPath gc fd env true).1.deployment
          = some (deployRun config)) := by
  refine ⟨?_, ?_, ?_⟩
  · intro build docker deployRun repo repoPath gc fd env deploy e hA
    unfold full_pipeline
    rw [hA]
  · intro build docker deployRun repo repoPath gc fd env deploy config framework confidence
      hA hfail
    unfold full_pipeline
    rw [hA]
    simp only []
    rw [hfail]
    simp only [Bool.not_false, ite_true]
  · intro build docker deployRun repo repoPath gc fd env config framework confidence hA hok
    unfold full_pipeline
    rw [hA]
    simp only []
    rw [hok]
    simp only [Bool.not_true, Bool.false_eq_true, ite_false, ite_true]
    exact ⟨rfl, rfl⟩

theorem full_pipeline_short_circuit_witness :
    analyze_only Option.none "/r" VDict.nil [] Env.empty
      = .failed ("Repository path does not exist: " ++ "/r")
    ∧ full_pipeline stageSucceeds stageSucceeds deployFails Option.none "/r"
        VDict.nil [] Env.empty true
      = (.analysisFailed (.failed ("Repository path does not exist: " ++ "/r")), []) :=
  ⟨rfl, full_pipeline_short_circuit.1 stageSucceeds stageSucceeds deployFails
    Option.none "/r" VDict.nil [] Env.empty true _ rfl⟩
